import Mathlib

/-!
Verification of the ibc-rs core against its specification.

Shallow embedding of the relevant parts of the source:
* ICS-20 coin parsing (`applications/transfer/coin.rs`)
* connection / channel message conversions (`ics03_connection/msgs/conn_open_try.rs`,
  `ics04_channel/msgs/timeout.rs`, `ics04_channel/msgs/chan_close_init.rs`)
* the `ChanCloseConfirm` handler (`ics04_channel/handler/chan_close_confirm.rs`)
* the Tendermint consensus-state codec (`clients/ics07_tendermint/consensus_state.rs`)
* `calculate_block_delay` (`ics04_channel/context.rs`)

Machine integers are modelled as `Nat`/`Int` with explicit wrap-around where the
source casts. Fallible conversions return `Except`/`Option`.
-/

namespace Ibc

/-! ## Basic character classes and digit parsing -/

/-- `[0-9]`, the first capture group of the coin regex. -/
def isDigitChar (c : Char) : Bool := c.isDigit

/-- The denomination character class of the regex in `coin.rs`:
`[a-zA-Z0-9/:\\._\x2d]`, i.e. letters, digits, `/`, `:`, backslash, `.`, `_`
and `-` (`\x2d`). -/
def isDenomChar (c : Char) : Bool :=
  c.isAlpha || c.isDigit || c = '/' || c = ':' || c = '\\' || c = '.' || c = '_' || c = '-'

/-- The denomination character class written in the specification:
`[a-zA-Z0-9/:._-]` (no backslash). -/
def isSpecDenomChar (c : Char) : Bool :=
  c.isAlpha || c.isDigit || c = '/' || c = ':' || c = '.' || c = '_' || c = '-'

/-- Decimal value of a digit string (most significant first). -/
def digitsToNat (cs : List Char) : Nat :=
  cs.foldl (fun acc c => 10 * acc + (c.toNat - '0'.toNat)) 0

/-! ## Coin parsing (`applications/transfer/coin.rs`)

`Amount` is modelled from the spec: "amounts are arbitrary-precision
non-negative integers serialized as decimal strings" (`amount.rs` is not part
of the sources), hence `Nat`. For `RawCoin` the denomination is a plain
`String` (Rust `Coin<String>`), whose `FromStr` never fails. -/

inductive TokenTransferError where
  | invalidCoin (coin : String)
  | utf8Decode
  | invalidAmount
deriving DecidableEq

/-- `RawCoin`, i.e. Rust `Coin<String>`. -/
structure RawCoin where
  denom : String
  amount : Nat
deriving DecidableEq

/-- Embeds `<Coin<String> as FromStr>::from_str`.

The source matches the whole input against the `safe_regex` pattern
`([0-9]+)([a-zA-Z0-9/:\\._\x2d]+)` (anchored at both ends). The match is
greedy: the first group takes the longest digit prefix that leaves a non-empty
remainder for the second group. Since digits also belong to the second group's
class, the split is after the maximal digit run, except when the whole input
is digits, in which case the last digit goes to the denomination group. -/
def rawCoinFromStr (s : String) : Except TokenTransferError RawCoin :=
  let cs := s.data
  let d := cs.takeWhile isDigitChar
  let r := cs.dropWhile isDigitChar
  if d = [] then .error (.invalidCoin s)
  else if r = [] then
    if 2 ≤ d.length then
      .ok { amount := digitsToNat d.dropLast, denom := String.mk (d.drop (d.length - 1)) }
    else .error (.invalidCoin s)
  else if r.all isDenomChar then .ok { amount := digitsToNat d, denom := String.mk r }
  else .error (.invalidCoin s)

/-- The coin grammar exactly as the specification states it:
`^([0-9]+)([a-zA-Z][a-zA-Z0-9/:._-]{2,127})$`. Since the second group must
start with a letter, the split point is forced to the end of the leading digit
run. Stated from the spec's words, for comparison with `rawCoinFromStr`. -/
def specCoinRegexMatch (s : String) : Bool :=
  let d := s.data.takeWhile isDigitChar
  let r := s.data.dropWhile isDigitChar
  match d, r with
  | [], _ => false
  | _ :: _, c :: rest =>
      c.isAlpha && (c :: rest).all isSpecDenomChar && 3 ≤ r.length && r.length ≤ 128
  | _ :: _, [] => false

/-- Embeds Rust `str::split(',')`: splits at every comma, keeping empty pieces
(`splitOnComma [] = [[]]`, like `"".split(',')`). -/
def splitOnComma : List Char → List (List Char)
  | [] => [[]]
  | c :: rest =>
    if c = ',' then [] :: splitOnComma rest
    else
      match splitOnComma rest with
      | [] => [[c]]
      | h :: t => (c :: h) :: t

/-- `collect::<Result<Vec<_>, _>>`: maps a fallible function over a list,
stopping at the first error. -/
def mapMExcept {α β ε : Type} (f : α → Except ε β) : List α → Except ε (List β)
  | [] => .ok []
  | x :: xs =>
    match f x with
    | .error e => .error e
    | .ok y =>
      match mapMExcept f xs with
      | .error e => .error e
      | .ok ys => .ok (y :: ys)

/-- Embeds `Coin::from_string_list`:
`coin_str.split(',').map(FromStr::from_str).collect()`. -/
def rawCoinFromStringList (s : String) : Except TokenTransferError (List RawCoin) :=
  mapMExcept (fun cs => rawCoinFromStr (String.mk cs)) (splitOnComma s.data)

/-- Comma-joining a list of strings ("lists are comma-separated"). -/
def commaJoin : List String → String
  | [] => ""
  | [s] => s
  | s :: rest => s ++ "," ++ commaJoin rest

/-! ## Identifiers (`ics24_host/identifier.rs` is not among the sources)

Modelled from the spec:
* `ClientId`: total length 9-64, chars `[A-Za-z0-9._+\-#\[\]<>]`;
* `ConnectionId`: `connection-{u64}`;
* `ChannelId`: `channel-{u64}`;
* `PortId`: 2-128 chars, same allowed alphabet.
Parsed identifiers keep the input string, so printing returns it verbatim. -/

inductive IdentifierError where
  | invalidIdentifier (id : String)
deriving DecidableEq

/-- The identifier alphabet of the spec: `[A-Za-z0-9._+\-#\[\]<>]`. -/
def isIdChar (c : Char) : Bool :=
  c.isAlpha || c.isDigit || c = '.' || c = '_' || c = '+' || c = '-' ||
  c = '#' || c = '[' || c = ']' || c = '<' || c = '>'

/-- Parses a decimal `u64` the way `str::parse::<u64>` does (digits only,
leading zeros allowed, value below `2^64`). -/
def parseU64 (cs : List Char) : Option Nat :=
  if cs ≠ [] ∧ cs.all isDigitChar then
    let n := digitsToNat cs
    if n < 2 ^ 64 then some n else none
  else none

/-- `b` begins with the character sequence `a`. -/
def leadsWithChars : List Char → List Char → Bool
  | [], _ => true
  | _ :: _, [] => false
  | p :: ps, c :: cs => p = c && leadsWithChars ps cs

structure ClientId where
  value : String
deriving DecidableEq

/-- Modelled from the spec: `ClientId` validation (length 9-64 over the
identifier alphabet; the `{client-type}-{u64}` shape is the generation format). -/
def ClientId.parse (s : String) : Except IdentifierError ClientId :=
  if 9 ≤ s.length ∧ s.length ≤ 64 ∧ s.data.all isIdChar then .ok ⟨s⟩
  else .error (.invalidIdentifier s)

def ClientId.toStr (c : ClientId) : String := c.value

structure ConnectionId where
  value : String
deriving DecidableEq

/-- Modelled from the spec: `ConnectionId`: `connection-{u64}`. -/
def ConnectionId.parse (s : String) : Except IdentifierError ConnectionId :=
  if leadsWithChars "connection-".data s.data ∧ (parseU64 (s.data.drop 11)).isSome then .ok ⟨s⟩
  else .error (.invalidIdentifier s)

def ConnectionId.toStr (c : ConnectionId) : String := c.value

structure ChannelId where
  value : String
deriving DecidableEq

/-- Modelled from the spec: `ChannelId`: `channel-{u64}`. -/
def ChannelId.parse (s : String) : Except IdentifierError ChannelId :=
  if leadsWithChars "channel-".data s.data ∧ (parseU64 (s.data.drop 8)).isSome then .ok ⟨s⟩
  else .error (.invalidIdentifier s)

def ChannelId.toStr (c : ChannelId) : String := c.value

structure PortId where
  value : String
deriving DecidableEq

/-- Modelled from the spec: `PortId`: 2-128 chars over the identifier alphabet. -/
def PortId.parse (s : String) : Except IdentifierError PortId :=
  if 2 ≤ s.length ∧ s.length ≤ 128 ∧ s.data.all isIdChar then .ok ⟨s⟩
  else .error (.invalidIdentifier s)

def PortId.toStr (p : PortId) : String := p.value

/-- `Signer` wraps the bech32 account string; `From<String>`/`to_string` are
mutually inverse. -/
def Signer := String
deriving instance DecidableEq for Signer

/-! ## Height (`ics02_client/height.rs` is not among the sources)

Modelled from the spec: `Height = (revision_number: u64, revision_height: u64)`
ordered lexicographically; `revision_height == 0` is invalid. -/

structure RawHeight where
  revision_number : Nat
  revision_height : Nat
deriving DecidableEq

structure Height where
  revision_number : Nat
  revision_height : Nat
deriving DecidableEq

/-- `Height::try_from(RawHeight)` fails exactly when `revision_height == 0`;
the callers in the sources use `raw_height.try_into().ok()`. -/
def Height.tryFromRaw (r : RawHeight) : Option Height :=
  if r.revision_height = 0 then none else some ⟨r.revision_number, r.revision_height⟩

def Height.toRaw (h : Height) : RawHeight := ⟨h.revision_number, h.revision_height⟩

/-- Lexicographic strict order on heights (spec: "Ordered lexicographically"). -/
def Height.ltb (a b : Height) : Bool :=
  a.revision_number < b.revision_number ||
    (a.revision_number = b.revision_number && a.revision_height < b.revision_height)

/-! ## Durations

`core::time::Duration`: seconds plus sub-second nanoseconds. -/

structure Duration where
  secs : Nat
  nanos : Nat
deriving DecidableEq

def Duration.is_zero (d : Duration) : Bool := d.secs == 0 && d.nanos == 0

/-- `Duration::from_nanos` (the raw `delay_period` field is `u64` nanoseconds). -/
def Duration.from_nanos (n : Nat) : Duration := ⟨n / 1000000000, n % 1000000000⟩

/-- `Duration::as_nanos` (mathematically; the source casts the `u128` result
with `as u64`, which the caller models with an explicit `% 2^64`). -/
def Duration.as_nanos (d : Duration) : Nat := d.secs * 1000000000 + d.nanos

/-! ## Commitment proof bytes and prefixes
(`ics23_commitment/commitment.rs` is not among the sources)

Modelled from the spec: `InvalidProof` arises for an empty proof byte string
(boundary scenario 3), so conversion from bytes fails exactly on empty input. -/

inductive CommitmentError where
  | emptyMerkleProof
  | emptyCommitmentPrefixBytes
deriving DecidableEq

structure CommitmentProofBytes where
  bytes : List Nat
deriving DecidableEq

def CommitmentProofBytes.tryFrom (b : List Nat) : Except CommitmentError CommitmentProofBytes :=
  if b = [] then .error .emptyMerkleProof else .ok ⟨b⟩

def CommitmentProofBytes.intoVec (p : CommitmentProofBytes) : List Nat := p.bytes

structure CommitmentPrefixBytes where
  bytes : List Nat
deriving DecidableEq

def CommitmentPrefixBytes.tryFrom (b : List Nat) : Except CommitmentError CommitmentPrefixBytes :=
  if b = [] then .error .emptyCommitmentPrefixBytes else .ok ⟨b⟩

def CommitmentPrefixBytes.intoVec (p : CommitmentPrefixBytes) : List Nat := p.bytes

/-! ## Protobuf `Any` -/

structure ProtoAny where
  type_url : String
  value : List Nat
deriving DecidableEq

/-! ## Connection versions (`ics03_connection/version.rs` is not among the
sources) -/

structure RawVersion where
  identifier : String
  features : List String
deriving DecidableEq

structure ConnVersion where
  identifier : String
  features : List String
deriving DecidableEq

inductive ConnectionError where
  | emptyVersions
  | emptyFeatures
  | invalidIdentifier (e : IdentifierError)
  | missingClientState
  | missingCounterparty
  | invalidProof
  | missingProofHeight
  | missingConsensusHeight
  | connectionNotFound (conn_id : ConnectionId)
  | invalidState (expected : Nat) (actual : Nat)
deriving DecidableEq

/-- Modelled from the spec: version validation rejects an empty version
identifier (the sources' test list includes "Bad counterparty versions, empty
version string"). -/
def ConnVersion.tryFromRaw (v : RawVersion) : Except ConnectionError ConnVersion :=
  if v.identifier = "" then .error .emptyVersions else .ok ⟨v.identifier, v.features⟩

def ConnVersion.toRaw (v : ConnVersion) : RawVersion := ⟨v.identifier, v.features⟩

/-! ## Connection counterparty (`ics03_connection/connection.rs` is not among
the sources)

Modelled from the spec: `counterparty: {client_id, connection_id: Option,
prefix}`. An empty raw connection id means "not set"; a missing prefix is
`MissingCounterparty`. -/

structure RawConnCounterparty where
  client_id : String
  connection_id : String
  prefixRaw : Option (List Nat)
deriving DecidableEq

structure ConnCounterparty where
  client_id : ClientId
  connection_id : Option ConnectionId
  prefixBytes : CommitmentPrefixBytes
deriving DecidableEq

def ConnCounterparty.tryFromRaw (raw : RawConnCounterparty) :
    Except ConnectionError ConnCounterparty := do
  let connection_id ←
    if raw.connection_id = "" then pure none
    else
      match ConnectionId.parse raw.connection_id with
      | .ok c => pure (some c)
      | .error e => .error (.invalidIdentifier e)
  let client_id ←
    match ClientId.parse raw.client_id with
    | .ok c => pure c
    | .error e => .error (.invalidIdentifier e)
  let pfx ←
    match raw.prefixRaw with
    | none => .error .missingCounterparty
    | some b =>
      match CommitmentPrefixBytes.tryFrom b with
      | .ok p => pure p
      | .error _ => .error .missingCounterparty
  pure ⟨client_id, connection_id, pfx⟩

def ConnCounterparty.toRaw (c : ConnCounterparty) : RawConnCounterparty :=
  { client_id := c.client_id.toStr
    connection_id := match c.connection_id with | none => "" | some cid => cid.toStr
    prefixRaw := some c.prefixBytes.intoVec }

/-! ## `MsgConnectionOpenTry` (`ics03_connection/msgs/conn_open_try.rs`) -/

@[ext]
structure RawMsgConnectionOpenTry where
  client_id : String
  previous_connection_id : String
  client_state : Option ProtoAny
  counterparty : Option RawConnCounterparty
  delay_period : Nat
  counterparty_versions : List RawVersion
  proof_height : Option RawHeight
  proof_init : List Nat
  proof_client : List Nat
  proof_consensus : List Nat
  consensus_height : Option RawHeight
  signer : String
  host_consensus_state_proof : List Nat
deriving DecidableEq

structure MsgConnectionOpenTry where
  client_id_on_b : ClientId
  client_state_of_b_on_a : ProtoAny
  counterparty : ConnCounterparty
  versions_on_a : List ConnVersion
  proof_conn_end_on_a : CommitmentProofBytes
  proof_client_state_of_b_on_a : CommitmentProofBytes
  proof_consensus_state_of_b_on_a : CommitmentProofBytes
  proofs_height_on_a : Height
  consensus_height_of_b_on_a : Height
  delay_period : Duration
  signer : Signer
  proof_consensus_state_of_b : Option CommitmentProofBytes
  previous_connection_id : String
deriving DecidableEq

/-- Embeds `TryFrom<RawMsgConnectionOpenTry> for MsgConnectionOpenTry`,
with the fallible steps in the source's evaluation order: the counterparty
versions are parsed and checked for emptiness first, then the struct fields in
the order they are written in the `Ok(Self { .. })` literal. -/
def MsgConnectionOpenTry.tryFromRaw (msg : RawMsgConnectionOpenTry) :
    Except ConnectionError MsgConnectionOpenTry := do
  let counterparty_versions ← mapMExcept ConnVersion.tryFromRaw msg.counterparty_versions
  if counterparty_versions = [] then .error .emptyVersions
  else do
    let client_id_on_b ←
      match ClientId.parse msg.client_id with
      | .ok c => pure c
      | .error e => .error (.invalidIdentifier e)
    let client_state_of_b_on_a ←
      match msg.client_state with
      | none => .error .missingClientState
      | some a => pure a
    let counterparty ←
      match msg.counterparty with
      | none => .error .missingCounterparty
      | some c => ConnCounterparty.tryFromRaw c
    let proof_conn_end_on_a ←
      match CommitmentProofBytes.tryFrom msg.proof_init with
      | .ok p => pure p
      | .error _ => .error .invalidProof
    let proof_client_state_of_b_on_a ←
      match CommitmentProofBytes.tryFrom msg.proof_client with
      | .ok p => pure p
      | .error _ => .error .invalidProof
    let proof_consensus_state_of_b_on_a ←
      match CommitmentProofBytes.tryFrom msg.proof_consensus with
      | .ok p => pure p
      | .error _ => .error .invalidProof
    let proofs_height_on_a ←
      match msg.proof_height.bind Height.tryFromRaw with
      | none => .error .missingProofHeight
      | some h => pure h
    let consensus_height_of_b_on_a ←
      match msg.consensus_height.bind Height.tryFromRaw with
      | none => .error .missingConsensusHeight
      | some h => pure h
    let proof_consensus_state_of_b ←
      if msg.host_consensus_state_proof = [] then pure none
      else
        match CommitmentProofBytes.tryFrom msg.host_consensus_state_proof with
        | .ok p => pure (some p)
        | .error _ => .error .invalidProof
    pure
      { previous_connection_id := msg.previous_connection_id
        client_id_on_b
        client_state_of_b_on_a
        counterparty
        versions_on_a := counterparty_versions
        proof_conn_end_on_a
        proof_client_state_of_b_on_a
        proof_consensus_state_of_b_on_a
        proofs_height_on_a
        consensus_height_of_b_on_a
        delay_period := Duration.from_nanos msg.delay_period
        signer := msg.signer
        proof_consensus_state_of_b }

/-- Embeds `From<MsgConnectionOpenTry> for RawMsgConnectionOpenTry`; the
`as u64` cast of `delay_period.as_nanos()` is the explicit `% 2^64`. -/
def MsgConnectionOpenTry.toRaw (msg : MsgConnectionOpenTry) : RawMsgConnectionOpenTry :=
  { client_id := msg.client_id_on_b.toStr
    previous_connection_id := msg.previous_connection_id
    client_state := some msg.client_state_of_b_on_a
    counterparty := some msg.counterparty.toRaw
    delay_period := msg.delay_period.as_nanos % 2 ^ 64
    counterparty_versions := msg.versions_on_a.map ConnVersion.toRaw
    proof_height := some msg.proofs_height_on_a.toRaw
    proof_init := msg.proof_conn_end_on_a.intoVec
    proof_client := msg.proof_client_state_of_b_on_a.intoVec
    proof_consensus := msg.proof_consensus_state_of_b_on_a.intoVec
    consensus_height := some msg.consensus_height_of_b_on_a.toRaw
    signer := msg.signer
    host_consensus_state_proof :=
      match msg.proof_consensus_state_of_b with
      | some proof => proof.intoVec
      | none => [] }

/-! ## Packets and `MsgTimeout` (`ics04_channel/msgs/timeout.rs`;
`ics04_channel/packet.rs` and `timeout.rs`'s `TimeoutHeight` are not among the
sources and are modelled from the spec) -/

inductive PacketError where
  | zeroPacketSequence
  | missingPacket
  | missingHeight
  | missingTimeout
  | invalidProof
  | identifierError (e : IdentifierError)
  | invalidTimeoutHeight
deriving DecidableEq

/-- `Sequence` is a `u64` newtype. -/
structure Sequence where
  value : Nat
deriving DecidableEq

/-- A timeout height is either unset ("never times out") or a valid height. -/
inductive TimeoutHeight where
  | never
  | at_ (h : Height)
deriving DecidableEq

/-- Modelled from the spec: `timeout_height: Option<Height>`; an absent raw
height or the zero raw height `(0, 0)` means unset, any other raw height must
be a valid `Height` (`revision_height ≠ 0`). -/
def TimeoutHeight.tryFromRaw (r : Option RawHeight) : Except PacketError TimeoutHeight :=
  match r with
  | none => .ok .never
  | some raw =>
    if raw.revision_number = 0 ∧ raw.revision_height = 0 then .ok .never
    else
      match Height.tryFromRaw raw with
      | none => .error .invalidTimeoutHeight
      | some h => .ok (.at_ h)

def TimeoutHeight.toRaw : TimeoutHeight → Option RawHeight
  | .never => none
  | .at_ h => some h.toRaw

/-- Timestamps are nanoseconds since the Unix epoch; `0` means "not set"
(spec: "`None`/zero means not set"). -/
def TimestampNanos := Nat
deriving instance DecidableEq for TimestampNanos

structure RawPacket where
  sequence : Nat
  source_port : String
  source_channel : String
  destination_port : String
  destination_channel : String
  data : List Nat
  timeout_height : Option RawHeight
  timeout_timestamp : Nat
deriving DecidableEq

structure Packet where
  seq_on_a : Sequence
  port_id_on_a : PortId
  chan_id_on_a : ChannelId
  port_id_on_b : PortId
  chan_id_on_b : ChannelId
  data : List Nat
  timeout_height_on_b : TimeoutHeight
  timeout_timestamp_on_b : Nat
deriving DecidableEq

/-- Modelled from the spec: `Packet` conversion from its raw form parses the
four identifiers and the timeout height, and requires "at least one of the
timeouts must be set". -/
def Packet.tryFromRaw (raw : RawPacket) : Except PacketError Packet := do
  let timeout_height_on_b ← TimeoutHeight.tryFromRaw raw.timeout_height
  if timeout_height_on_b = .never ∧ raw.timeout_timestamp = 0 then .error .missingTimeout
  else do
    let port_id_on_a ←
      match PortId.parse raw.source_port with
      | .ok p => pure p
      | .error e => .error (.identifierError e)
    let chan_id_on_a ←
      match ChannelId.parse raw.source_channel with
      | .ok c => pure c
      | .error e => .error (.identifierError e)
    let port_id_on_b ←
      match PortId.parse raw.destination_port with
      | .ok p => pure p
      | .error e => .error (.identifierError e)
    let chan_id_on_b ←
      match ChannelId.parse raw.destination_channel with
      | .ok c => pure c
      | .error e => .error (.identifierError e)
    pure
      { seq_on_a := ⟨raw.sequence⟩
        port_id_on_a
        chan_id_on_a
        port_id_on_b
        chan_id_on_b
        data := raw.data
        timeout_height_on_b
        timeout_timestamp_on_b := raw.timeout_timestamp }

def Packet.toRaw (p : Packet) : RawPacket :=
  { sequence := p.seq_on_a.value
    source_port := p.port_id_on_a.toStr
    source_channel := p.chan_id_on_a.toStr
    destination_port := p.port_id_on_b.toStr
    destination_channel := p.chan_id_on_b.toStr
    data := p.data
    timeout_height := p.timeout_height_on_b.toRaw
    timeout_timestamp := p.timeout_timestamp_on_b }

structure RawMsgTimeout where
  packet : Option RawPacket
  proof_unreceived : List Nat
  proof_height : Option RawHeight
  next_sequence_recv : Nat
  signer : String
deriving DecidableEq

structure MsgTimeout where
  packet : Packet
  next_seq_recv_on_b : Sequence
  proof_unreceived_on_b : CommitmentProofBytes
  proof_height_on_b : Height
  signer : Signer
deriving DecidableEq

/-- Embeds `TryFrom<RawMsgTimeout> for MsgTimeout`. -/
def MsgTimeout.tryFromRaw (raw_msg : RawMsgTimeout) : Except PacketError MsgTimeout := do
  if raw_msg.next_sequence_recv = 0 then .error .zeroPacketSequence
  else do
    let packet ←
      match raw_msg.packet with
      | none => .error .missingPacket
      | some p => Packet.tryFromRaw p
    let proof_unreceived_on_b ←
      match CommitmentProofBytes.tryFrom raw_msg.proof_unreceived with
      | .ok p => pure p
      | .error _ => .error .invalidProof
    let proof_height_on_b ←
      match raw_msg.proof_height.bind Height.tryFromRaw with
      | none => .error .missingHeight
      | some h => pure h
    pure
      { packet
        next_seq_recv_on_b := ⟨raw_msg.next_sequence_recv⟩
        proof_unreceived_on_b
        proof_height_on_b
        signer := raw_msg.signer }

/-- Embeds `From<MsgTimeout> for RawMsgTimeout`. -/
def MsgTimeout.toRaw (domain_msg : MsgTimeout) : RawMsgTimeout :=
  { packet := some domain_msg.packet.toRaw
    proof_unreceived := domain_msg.proof_unreceived_on_b.intoVec
    proof_height := some domain_msg.proof_height_on_b.toRaw
    next_sequence_recv := domain_msg.next_seq_recv_on_b.value
    signer := domain_msg.signer }

/-! ## `MsgChannelCloseInit` (`ics04_channel/msgs/chan_close_init.rs`) -/

inductive ChannelError where
  | channelNotFound (port_id : PortId) (channel_id : ChannelId)
  | identifierError (e : IdentifierError)
  | invalidState (actualIsClosed : Bool)
  | missingCounterparty
  | undefinedConnectionCounterparty (connection_id : ConnectionId)
  | verifyChannelFailed
  | other (description : String)
deriving DecidableEq

structure RawMsgChannelCloseInit where
  port_id : String
  channel_id : String
  signer : String
deriving DecidableEq

structure MsgChannelCloseInit where
  port_id_on_a : PortId
  chan_id_on_a : ChannelId
  signer : Signer
deriving DecidableEq

/-- Embeds `TryFrom<RawMsgChannelCloseInit> for MsgChannelCloseInit`. -/
def MsgChannelCloseInit.tryFromRaw (raw_msg : RawMsgChannelCloseInit) :
    Except ChannelError MsgChannelCloseInit := do
  let port_id_on_a ←
    match PortId.parse raw_msg.port_id with
    | .ok p => pure p
    | .error e => .error (.identifierError e)
  let chan_id_on_a ←
    match ChannelId.parse raw_msg.channel_id with
    | .ok c => pure c
    | .error e => .error (.identifierError e)
  pure { port_id_on_a, chan_id_on_a, signer := raw_msg.signer }

/-- Embeds `From<MsgChannelCloseInit> for RawMsgChannelCloseInit`. -/
def MsgChannelCloseInit.toRaw (domain_msg : MsgChannelCloseInit) : RawMsgChannelCloseInit :=
  { port_id := domain_msg.port_id_on_a.toStr
    channel_id := domain_msg.chan_id_on_a.toStr
    signer := domain_msg.signer }

/-! ## Channel and connection ends (`ics04_channel/channel.rs` and
`ics03_connection/connection.rs` are not among the sources; modelled from the
spec's data model) -/

inductive ChannelState where
  | Uninitialized
  | Init
  | TryOpen
  | Open
  | Closed
deriving DecidableEq

inductive Order where
  | none_
  | Unordered
  | Ordered
deriving DecidableEq

/-- `counterparty: {port_id, channel_id: Option}`. -/
structure ChanCounterparty where
  port_id : PortId
  channel_id : Option ChannelId
deriving DecidableEq

/-- The ICS-04 channel version is an opaque string. -/
def ChanVersion := String
deriving instance DecidableEq for ChanVersion

structure ChannelEnd where
  state : ChannelState
  ordering : Order
  remote : ChanCounterparty
  connection_hops : List ConnectionId
  version : ChanVersion
deriving DecidableEq

def ChannelEnd.counterparty (ce : ChannelEnd) : ChanCounterparty := ce.remote

/-- `ChannelEnd::new` in the source returns a `Result`; modelled from the
spec, which describes no failing validation for construction. -/
def ChannelEnd.new (state : ChannelState) (ordering : Order) (remote : ChanCounterparty)
    (connection_hops : List ConnectionId) (version : ChanVersion) :
    Except ChannelError ChannelEnd :=
  .ok ⟨state, ordering, remote, connection_hops, version⟩

/-- `ChannelEnd::set_state`. -/
def ChannelEnd.set_state (ce : ChannelEnd) (s : ChannelState) : ChannelEnd :=
  { ce with state := s }

/-- `ChannelEnd::verify_not_closed`: fails exactly when the channel is already
`Closed` (spec: a channel "must not already be `Closed`"; states advance
monotonically and `Closed` is terminal). -/
def ChannelEnd.verify_not_closed (ce : ChannelEnd) : Except ChannelError Unit :=
  if ce.state = .Closed then .error (.invalidState true) else .ok ()

inductive ConnectionState where
  | Uninitialized
  | Init
  | TryOpen
  | Open
deriving DecidableEq

structure ConnectionEnd where
  state : ConnectionState
  client_id : ClientId
  remote : ConnCounterparty
  versions : List ConnVersion
  delay_period : Duration
deriving DecidableEq

def ConnectionEnd.counterparty (c : ConnectionEnd) : ConnCounterparty := c.remote

/-- `ConnectionEnd::verify_state_matches`: fails when the connection is not in
the expected state. -/
def ConnectionEnd.verify_state_matches (c : ConnectionEnd) (expected : ConnectionState) :
    Except ConnectionError Unit :=
  if c.state = expected then .ok ()
  else .error (.invalidState (match expected with
    | .Uninitialized => 0 | .Init => 1 | .TryOpen => 2 | .Open => 3)
    (match c.state with
    | .Uninitialized => 0 | .Init => 1 | .TryOpen => 2 | .Open => 3))

/-! ## Client capability set (`ics02_client` client state / consensus state;
the concrete client types are not among the sources)

Modelled from the spec's light-client interface: `status`, `latest_height`,
`validate_proof_height` (fails if the proof height exceeds the latest height),
and opaque `verify_membership`. -/

inductive ClientError where
  | clientStateNotFound (client_id : ClientId)
  | clientNotActive
  | invalidProofHeight (proof_height : Height) (latest_height : Height)
  | consensusStateNotFound (client_id : ClientId) (height : Height)
  | unknownConsensusStateType (consensus_state_type : String)
  | clientSpecific (description : String)
deriving DecidableEq

inductive Status where
  | Active
  | Frozen
  | Expired
deriving DecidableEq

def Status.is_active (s : Status) : Bool := s = .Active

/-- Merkle store paths used by the `ChanCloseConfirm` handler. -/
inductive StorePath where
  | ChannelEndP (port_id : PortId) (channel_id : ChannelId)
deriving DecidableEq

/-- Commitment root of a counterparty consensus state. -/
structure CommitmentRootBytes where
  bytes : List Nat
deriving DecidableEq

/-- A stored client state, as the capability set the handler reads:
status, latest height, and the opaque membership verifier (the source calls
`verify_membership` with the protobuf encoding of the expected channel end;
encoding being injective, the verifier is modelled as a predicate on the
expected `ChannelEnd` itself). -/
structure MockClientState where
  status : Status
  latestHeight : Height
  verifyMembership :
    CommitmentPrefixBytes → CommitmentProofBytes → CommitmentRootBytes → StorePath →
      ChannelEnd → Bool

/-- `validate_proof_height(h)` fails if `h > latest_height`. -/
def MockClientState.validate_proof_height (cs : MockClientState) (proof_height : Height) :
    Except ClientError Unit :=
  if cs.latestHeight.ltb proof_height then .error (.invalidProofHeight proof_height cs.latestHeight)
  else .ok ()

structure MockConsensusState where
  root : CommitmentRootBytes
  timestampNanos : Nat
deriving DecidableEq

/-! ## Events (`core/events.rs`, `ics04_channel/events.rs` are not among the
sources; modelled from the spec: one typed event per handler outcome plus a
generic `Message` event) -/

inductive MessageEvent where
  | Client
  | Connection
  | Channel
  | ModuleKind (module : String)
deriving DecidableEq

/-- The `CloseConfirmChannel` event payload. -/
structure CloseConfirm where
  port_id_on_b : PortId
  chan_id_on_b : ChannelId
  port_id_on_a : PortId
  chan_id_on_a : ChannelId
  conn_id_on_b : ConnectionId
deriving DecidableEq

structure ModuleEvent where
  kind : String
  attributes : List (String × String)
deriving DecidableEq

inductive IbcEvent where
  | Message (m : MessageEvent)
  | CloseConfirmChannel (e : CloseConfirm)
  | ModuleEv (e : ModuleEvent)
deriving DecidableEq

/-! ## Errors surfaced by handlers -/

inductive ContextError where
  | clientError (e : ClientError)
  | connectionError (e : ConnectionError)
  | channelError (e : ChannelError)
  | packetError (e : PacketError)
  /-- Rust panics (such as indexing `connection_hops[0]` on an empty vector)
  abort the handler without a surfaced `ContextError`; the model makes that
  outcome explicit. -/
  | hostPanic
deriving DecidableEq

/-! ## The host context

The handlers are generic over the host's `ValidationContext` /
`ExecutionContext` capability sets; the embedding quantifies over a context of
finite association stores plus the event and log sinks, the standard shallow
embedding of the key-value host surface (spec section 5: synchronous in-memory
reads and writes). -/

/-- Association-list lookup keyed by decidable equality. -/
def lookupAssoc {κ α : Type} [DecidableEq κ] (k : κ) : List (κ × α) → Option α
  | [] => none
  | (k', v') :: rest => if k = k' then some v' else lookupAssoc k rest

/-- Association-list update: replaces the first binding of `k`, otherwise
appends. -/
def updateAssoc {κ α : Type} [DecidableEq κ] (k : κ) (v : α) : List (κ × α) → List (κ × α)
  | [] => [(k, v)]
  | (k', v') :: rest => if k = k' then (k, v) :: rest else (k', v') :: updateAssoc k v rest

structure MockContext where
  channelEnds : List ((PortId × ChannelId) × ChannelEnd)
  connectionEnds : List (ConnectionId × ConnectionEnd)
  clientStates : List (ClientId × MockClientState)
  consensusStates : List ((ClientId × Height) × MockConsensusState)
  signerOk : Signer → Bool
  events : List IbcEvent
  logs : List String

/-- `ValidationContext::channel_end`. -/
def MockContext.channel_end (ctx : MockContext) (port_id : PortId) (channel_id : ChannelId) :
    Except ContextError ChannelEnd :=
  match lookupAssoc (port_id, channel_id) ctx.channelEnds with
  | none => .error (.channelError (.channelNotFound port_id channel_id))
  | some ce => .ok ce

/-- `ValidationContext::connection_end`. -/
def MockContext.connection_end (ctx : MockContext) (conn_id : ConnectionId) :
    Except ContextError ConnectionEnd :=
  match lookupAssoc conn_id ctx.connectionEnds with
  | none => .error (.connectionError (.connectionNotFound conn_id))
  | some ce => .ok ce

/-- `ValidationContext::client_state`. -/
def MockContext.client_state (ctx : MockContext) (client_id : ClientId) :
    Except ContextError MockClientState :=
  match lookupAssoc client_id ctx.clientStates with
  | none => .error (.clientError (.clientStateNotFound client_id))
  | some cs => .ok cs

/-- `ValidationContext::consensus_state` (keyed by `(client_id, height)`). -/
def MockContext.consensus_state (ctx : MockContext) (client_id : ClientId) (height : Height) :
    Except ContextError MockConsensusState :=
  match lookupAssoc (client_id, height) ctx.consensusStates with
  | none => .error (.clientError (.consensusStateNotFound client_id height))
  | some cs => .ok cs

/-- `ValidationContext::validate_message_signer`. -/
def MockContext.validate_message_signer (ctx : MockContext) (signer : Signer) :
    Except ContextError Unit :=
  if ctx.signerOk signer then .ok () else .error (.clientError (.clientSpecific "bad signer"))

/-- `ExecutionContext::store_channel`. -/
def MockContext.store_channel (ctx : MockContext) (port_id : PortId) (channel_id : ChannelId)
    (ce : ChannelEnd) : MockContext :=
  { ctx with channelEnds := updateAssoc (port_id, channel_id) ce ctx.channelEnds }

/-- `ExecutionContext::emit_ibc_event`. -/
def MockContext.emit_ibc_event (ctx : MockContext) (ev : IbcEvent) : MockContext :=
  { ctx with events := ctx.events ++ [ev] }

/-- `ExecutionContext::log_message`. -/
def MockContext.log_message (ctx : MockContext) (m : String) : MockContext :=
  { ctx with logs := ctx.logs ++ [m] }

/-! ## Module callbacks (`core/router.rs` is not among the sources; modelled
from the spec's port and routing section: per-step validation and execution
callbacks, the latter may return additional events and logs) -/

structure ModuleExtras where
  events : List ModuleEvent
  log : List String
deriving DecidableEq

structure ModuleCallbacks where
  onChanCloseConfirmValidate : PortId → ChannelId → Except ContextError Unit
  onChanCloseConfirmExecute : PortId → ChannelId → Except ContextError ModuleExtras

/-! ## `MsgChannelCloseConfirm` and its handler
(`ics04_channel/handler/chan_close_confirm.rs`) -/

structure MsgChannelCloseConfirm where
  port_id_on_b : PortId
  chan_id_on_b : ChannelId
  proof_chan_end_on_a : CommitmentProofBytes
  proof_height_on_a : Height
  signer : Signer

/-- Embeds the private `validate` function of `chan_close_confirm.rs`
(lines 96-165), step for step in source order. -/
def chanCloseConfirmValidateInner (ctx_b : MockContext) (msg : MsgChannelCloseConfirm) :
    Except ContextError Unit := do
  (ctx_b.validate_message_signer msg.signer)
  let chan_end_on_b ← ctx_b.channel_end msg.port_id_on_b msg.chan_id_on_b
  match chan_end_on_b.verify_not_closed with
  | .error e => .error (.channelError e)
  | .ok _ => do
    let conn_id_on_b_0 ←
      match chan_end_on_b.connection_hops with
      | [] => .error .hostPanic
      | h :: _ => pure h
    let conn_end_on_b ← ctx_b.connection_end conn_id_on_b_0
    match conn_end_on_b.verify_state_matches .Open with
    | .error e => .error (.connectionError e)
    | .ok _ => do
      let client_id_on_b := conn_end_on_b.client_id
      let client_state_of_a_on_b ← ctx_b.client_state client_id_on_b
      if !client_state_of_a_on_b.status.is_active then
        .error (.clientError .clientNotActive)
      else do
        match client_state_of_a_on_b.validate_proof_height msg.proof_height_on_a with
        | .error e => .error (.clientError e)
        | .ok _ => do
          let consensus_state_of_a_on_b ←
            ctx_b.consensus_state client_id_on_b msg.proof_height_on_a
          let prefix_on_a := conn_end_on_b.counterparty.prefixBytes
          let port_id_on_a := chan_end_on_b.counterparty.port_id
          let chan_id_on_a ←
            match chan_end_on_b.counterparty.channel_id with
            | none => .error (.channelError .missingCounterparty)
            | some c => pure c
          let conn_id_on_a ←
            match conn_end_on_b.counterparty.connection_id with
            | none => .error (.channelError (.undefinedConnectionCounterparty conn_id_on_b_0))
            | some c => pure c
          let expected_chan_end_on_a ←
            match ChannelEnd.new .Closed chan_end_on_b.ordering
                ⟨msg.port_id_on_b, some msg.chan_id_on_b⟩ [conn_id_on_a]
                chan_end_on_b.version with
            | .error e => .error (.channelError e)
            | .ok ce => pure ce
          if client_state_of_a_on_b.verifyMembership prefix_on_a msg.proof_chan_end_on_a
              consensus_state_of_a_on_b.root (.ChannelEndP port_id_on_a chan_id_on_a)
              expected_chan_end_on_a then
            .ok ()
          else .error (.channelError .verifyChannelFailed)

/-- Embeds `chan_close_confirm_validate`: the core `validate` followed by the
module's validation callback. -/
def chan_close_confirm_validate (ctx_b : MockContext) (module : ModuleCallbacks)
    (msg : MsgChannelCloseConfirm) : Except ContextError Unit := do
  chanCloseConfirmValidateInner ctx_b msg
  module.onChanCloseConfirmValidate msg.port_id_on_b msg.chan_id_on_b

/-- Embeds `chan_close_confirm_execute`. The Rust handler mutates the context
through `&mut`; the embedding threads the context explicitly and returns the
context as mutated up to the point of return, together with the error, if any.
Source order: module execution callback, channel-end read, store of the
`Closed` channel end, success log, event construction (where a missing
counterparty channel id surfaces an internal error and `connection_hops[0]`
panics on an empty vector, modelled as `ContextError.hostPanic`), emission of
the `Message(Channel)` and `CloseConfirmChannel` events, then the module's
extra events and logs. -/
def chan_close_confirm_execute (ctx_b : MockContext) (module : ModuleCallbacks)
    (msg : MsgChannelCloseConfirm) : MockContext × Option ContextError :=
  match module.onChanCloseConfirmExecute msg.port_id_on_b msg.chan_id_on_b with
  | .error e => (ctx_b, some e)
  | .ok extras =>
    match ctx_b.channel_end msg.port_id_on_b msg.chan_id_on_b with
    | .error e => (ctx_b, some e)
    | .ok chan_end_on_b =>
      let ctx_b := ctx_b.store_channel msg.port_id_on_b msg.chan_id_on_b
        (chan_end_on_b.set_state .Closed)
      let ctx_b := ctx_b.log_message "success: channel close confirm"
      let port_id_on_a := chan_end_on_b.counterparty.port_id
      match chan_end_on_b.counterparty.channel_id with
      | none =>
        (ctx_b, some (.channelError (.other
          "internal error: ChannelEnd lacks a counterparty channel id in CloseInit")))
      | some chan_id_on_a =>
        match chan_end_on_b.connection_hops with
        | [] => (ctx_b, some .hostPanic)
        | conn_id_on_b :: _ =>
          let core_event := IbcEvent.CloseConfirmChannel
            ⟨msg.port_id_on_b, msg.chan_id_on_b, port_id_on_a, chan_id_on_a, conn_id_on_b⟩
          let ctx_b := ctx_b.emit_ibc_event (.Message .Channel)
          let ctx_b := ctx_b.emit_ibc_event core_event
          let ctx_b := extras.events.foldl (fun c ev => c.emit_ibc_event (.ModuleEv ev)) ctx_b
          let ctx_b := extras.log.foldl (fun c m => c.log_message m) ctx_b
          (ctx_b, none)

/-! ## `calculate_block_delay` (`ics04_channel/context.rs`)

The source guards the zero divisor and returns `0`; otherwise it computes
`FloatCore::ceil(delay.as_secs_f64() / max.as_secs_f64()) as u64`. The
non-zero branch is modelled by the exact rational ceiling over nanoseconds;
the IEEE-754 double rounding of the source is not representable in this
embedding (see the treatment of the related claims). Only the guard branch is
relied upon by the theorems below. -/

def calculate_block_delay (delay_period_time max_expected_time_per_block : Duration) : Nat :=
  if max_expected_time_per_block.is_zero then 0
  else
    (delay_period_time.as_nanos + max_expected_time_per_block.as_nanos - 1) /
      max_expected_time_per_block.as_nanos

/-! ## Tendermint `ConsensusState` (`clients/ics07_tendermint/consensus_state.rs`)

`tendermint::Time` and `tendermint::Hash` are external types: `Time` is a
date-time between year 1 and year 9999 with nanosecond precision, validated on
conversion from a protobuf `Timestamp`; `Hash` is either a 32-byte SHA-256
digest or `None` (empty bytes). -/

/-- Seconds of `0001-01-01T00:00:00Z`, the lower bound of `tendermint::Time`. -/
def tmTimeMinSeconds : Int := -62135596800

/-- Seconds of `9999-12-31T23:59:59Z`, the upper bound of `tendermint::Time`. -/
def tmTimeMaxSeconds : Int := 253402300799

/-- `tendermint::Time`: a validated timestamp. -/
structure TmTime where
  seconds : Int
  nanos : Nat
  nanos_lt : nanos < 1000000000
  seconds_ge : tmTimeMinSeconds ≤ seconds
  seconds_le : seconds ≤ tmTimeMaxSeconds

theorem TmTime.ext_fields {a b : TmTime} (hs : a.seconds = b.seconds)
    (hn : a.nanos = b.nanos) : a = b := by
  cases a; cases b; simp_all

/-- The protobuf `google.protobuf.Timestamp` message. -/
structure ProtoTimestamp where
  seconds : Int
  nanos : Int
deriving DecidableEq

/-- `tendermint::Time::try_from(Timestamp)`: requires the nanoseconds in
`0..=999_999_999` and the instant within year 1 to year 9999. (The upper
nanosecond bound is phrased on `Int.toNat`, equivalent under the
non-negativity conjunct.) -/
def TmTime.tryFromProto (t : ProtoTimestamp) : Except String TmTime :=
  if h : 0 ≤ t.nanos ∧ t.nanos.toNat < 1000000000 ∧ tmTimeMinSeconds ≤ t.seconds ∧
      t.seconds ≤ tmTimeMaxSeconds then
    .ok ⟨t.seconds, t.nanos.toNat, h.2.1, h.2.2.1, h.2.2.2⟩
  else .error "invalid timestamp"

/-- `From<tendermint::Time> for Timestamp`. -/
def TmTime.toProto (t : TmTime) : ProtoTimestamp := ⟨t.seconds, (t.nanos : Int)⟩

/-- `tendermint::Hash` with algorithm SHA-256. -/
inductive TmHash where
  | sha256 (bytes : List Nat) (len32 : bytes.length = 32)
  | noHash

/-- `Hash::from_bytes(Algorithm::Sha256, bytes)`: empty bytes give
`Hash::None`, 32 bytes give a digest, anything else is an error. -/
def TmHash.from_bytes (bytes : List Nat) : Except String TmHash :=
  if bytes = [] then .ok .noHash
  else if h : bytes.length = 32 then .ok (.sha256 bytes h)
  else .error "invalid hash size"

/-- `Hash::as_bytes` (`Hash::None` is the empty byte string). -/
def TmHash.as_bytes : TmHash → List Nat
  | .sha256 bytes _ => bytes
  | .noHash => []

structure MerkleRoot where
  hash : List Nat
deriving DecidableEq

/-- The raw protobuf `ibc.lightclients.tendermint.v1.ConsensusState`:
`timestamp = 1`, `root = 2`, `next_validators_hash = 3`. -/
structure RawConsensusState where
  timestamp : Option ProtoTimestamp
  root : Option MerkleRoot
  next_validators_hash : List Nat
deriving DecidableEq

/-- `CommitmentRoot` holds opaque bytes. -/
structure ConsensusState where
  timestamp : TmTime
  root : CommitmentRootBytes
  next_validators_hash : TmHash

inductive TmClientError where
  | invalidRawClientState (reason : String)
  | decode
deriving DecidableEq

/-- Embeds `TryFrom<RawConsensusState> for ConsensusState`: the root must be
present, the timestamp must be present and valid, the hash bytes must form a
SHA-256 `Hash`. -/
def ConsensusState.tryFromRaw (raw : RawConsensusState) :
    Except TmClientError ConsensusState :=
  match raw.root with
  | none => .error (.invalidRawClientState "missing commitment root")
  | some proto_root =>
    match raw.timestamp with
    | none => .error (.invalidRawClientState "missing timestamp")
    | some ts =>
      match TmTime.tryFromProto ts with
      | .error _ => .error (.invalidRawClientState "invalid timestamp")
      | .ok timestamp =>
        match TmHash.from_bytes raw.next_validators_hash with
        | .error _ => .error (.invalidRawClientState "invalid hash")
        | .ok next_validators_hash =>
          .ok ⟨timestamp, ⟨proto_root.hash⟩, next_validators_hash⟩

/-- Embeds `From<ConsensusState> for RawConsensusState`. -/
def ConsensusState.toRaw (value : ConsensusState) : RawConsensusState :=
  { timestamp := some value.timestamp.toProto
    root := some ⟨value.root.bytes⟩
    next_validators_hash := value.next_validators_hash.as_bytes }

/-! ## Protobuf wire codec for `RawConsensusState`

The protobuf runtime (`prost`) is an external collaborator of the repository
(the spec declares the wire-level codec out of scope); the encoder below is
the canonical proto3 wire encoding that `prost` emits for this message
(fields in tag order, default-valued scalar fields skipped), and the decoder
reads that canonical form back (fields in tag order, each at most once). -/

/-- Little-endian base-128 varint encoding. -/
def varintEnc (n : Nat) : List Nat :=
  if h : n < 128 then [n]
  else (128 + n % 128) :: varintEnc (n / 128)
termination_by n
decreasing_by exact Nat.div_lt_self (by omega) (by omega)

/-- Varint decoding: value and remaining bytes. -/
def varintDec : List Nat → Option (Nat × List Nat)
  | [] => none
  | b :: rest =>
    if b < 128 then some (b, rest)
    else
      match varintDec rest with
      | none => none
      | some (m, r) => some ((b - 128) + 128 * m, r)

/-- Two's-complement `u64` image of an `i64` (prost encodes `int64` as the
varint of this value). -/
def i64ToU64 (s : Int) : Nat := (s % 2 ^ 64).toNat

/-- Decoding side of `i64ToU64`. -/
def u64ToI64 (u : Nat) : Int := if u < 2 ^ 63 then (u : Int) else (u : Int) - 2 ^ 64

/-- prost encodes `int32` by sign-extending to `i64` first. -/
def i32ToU64 (n : Int) : Nat :=
  if (n % 2 ^ 32).toNat < 2 ^ 31 then (n % 2 ^ 32).toNat
  else (n % 2 ^ 32).toNat + (2 ^ 64 - 2 ^ 32)

/-- Decoding side of `i32ToU64`: truncate to 32 bits, then re-sign. -/
def u64ToI32 (u : Nat) : Int :=
  if u % 2 ^ 32 < 2 ^ 31 then ((u % 2 ^ 32 : Nat) : Int)
  else ((u % 2 ^ 32 : Nat) : Int) - 2 ^ 32

/-- Canonical encoding of `google.protobuf.Timestamp`: `seconds` (field 1,
varint) then `nanos` (field 2, varint), zero values skipped. -/
def encodeProtoTimestamp (t : ProtoTimestamp) : List Nat :=
  (if t.seconds = 0 then [] else 8 :: varintEnc (i64ToU64 t.seconds)) ++
    (if t.nanos = 0 then [] else 16 :: varintEnc (i32ToU64 t.nanos))

/-- Decoder for the canonical `Timestamp` encoding. -/
def decodeProtoTimestamp (bs : List Nat) : Option ProtoTimestamp :=
  match bs with
  | [] => some ⟨0, 0⟩
  | 8 :: rest =>
    match varintDec rest with
    | none => none
    | some (u, rest1) =>
      match rest1 with
      | [] => some ⟨u64ToI64 u, 0⟩
      | 16 :: rest2 =>
        match varintDec rest2 with
        | none => none
        | some (v, rest3) => if rest3 = [] then some ⟨u64ToI64 u, u64ToI32 v⟩ else none
      | _ => none
  | 16 :: rest =>
    match varintDec rest with
    | none => none
    | some (v, rest1) => if rest1 = [] then some ⟨0, u64ToI32 v⟩ else none
  | _ => none

/-- Canonical encoding of `MerkleRoot`: `hash` (field 1, bytes), skipped when
empty. -/
def encodeMerkleRoot (m : MerkleRoot) : List Nat :=
  if m.hash = [] then [] else 10 :: (varintEnc m.hash.length ++ m.hash)

/-- Decoder for the canonical `MerkleRoot` encoding. -/
def decodeMerkleRoot (bs : List Nat) : Option MerkleRoot :=
  match bs with
  | [] => some ⟨[]⟩
  | 10 :: rest =>
    match varintDec rest with
    | none => none
    | some (len, r) => if r.length = len then some ⟨r⟩ else none
  | _ => none

/-- Reads an optional length-delimited field with the given tag byte. -/
def readLenField (tag : Nat) (bs : List Nat) : Option (Option (List Nat) × List Nat) :=
  match bs with
  | [] => some (none, [])
  | b :: rest =>
    if b = tag then
      match varintDec rest with
      | none => none
      | some (len, r) =>
        if len ≤ r.length then some (some (r.take len), r.drop len) else none
    else some (none, b :: rest)

/-- A length-delimited protobuf field: tag byte, varint length, payload. -/
def fieldEnc (tag : Nat) (payload : List Nat) : List Nat :=
  tag :: (varintEnc payload.length ++ payload)

/-- Canonical proto3 encoding of `RawConsensusState`. -/
def encodeRawConsensusState (r : RawConsensusState) : List Nat :=
  (match r.timestamp with
   | none => []
   | some t => fieldEnc 10 (encodeProtoTimestamp t)) ++
  ((match r.root with
    | none => []
    | some m => fieldEnc 18 (encodeMerkleRoot m)) ++
   (match r.next_validators_hash with
    | [] => []
    | l => fieldEnc 26 l))

/-- Assembles a decoded `RawConsensusState` from the decoded timestamp and the
raw root / validator-hash fields. -/
def decodeRawConsensusStateTail (ts : Option ProtoTimestamp) (rootField : Option (List Nat))
    (nvhField : Option (List Nat)) : Option RawConsensusState :=
  match rootField with
  | none => some ⟨ts, none, match nvhField with | none => [] | some l => l⟩
  | some rootBytes =>
    match decodeMerkleRoot rootBytes with
    | none => none
    | some root => some ⟨ts, some root, match nvhField with | none => [] | some l => l⟩

/-- Decoder for the canonical `RawConsensusState` encoding. -/
def decodeRawConsensusState (bs : List Nat) : Option RawConsensusState :=
  match readLenField 10 bs with
  | none => none
  | some (tsField, bs1) =>
    match readLenField 18 bs1 with
    | none => none
    | some (rootField, bs2) =>
      match readLenField 26 bs2 with
      | none => none
      | some (nvhField, bs3) =>
        if bs3 = [] then
          match tsField with
          | none => decodeRawConsensusStateTail none rootField nvhField
          | some tsBytes =>
            match decodeProtoTimestamp tsBytes with
            | none => none
            | some ts => decodeRawConsensusStateTail (some ts) rootField nvhField
        else none

def TENDERMINT_CONSENSUS_STATE_TYPE_URL : String :=
  "/ibc.lightclients.tendermint.v1.ConsensusState"

/-- Embeds `From<ConsensusState> for Any`: tags the protobuf encoding of the
raw form with the Tendermint consensus-state type URL. -/
def ConsensusState.toAny (consensus_state : ConsensusState) : ProtoAny :=
  ⟨TENDERMINT_CONSENSUS_STATE_TYPE_URL, encodeRawConsensusState consensus_state.toRaw⟩

inductive AnyClientError where
  | unknownConsensusStateType (consensus_state_type : String)
  | tm (e : TmClientError)
deriving DecidableEq

/-- Embeds `TryFrom<Any> for ConsensusState`: dispatch on the type URL, decode
the raw message, convert to the domain type. -/
def ConsensusState.tryFromAny (raw : ProtoAny) : Except AnyClientError ConsensusState :=
  if raw.type_url = TENDERMINT_CONSENSUS_STATE_TYPE_URL then
    match decodeRawConsensusState raw.value with
    | none => .error (.tm .decode)
    | some r =>
      match ConsensusState.tryFromRaw r with
      | .ok cs => .ok cs
      | .error e => .error (.tm e)
  else .error (.unknownConsensusStateType raw.type_url)

/-! # Theorems -/

/-! ## Association-list lemmas -/

theorem lookupAssoc_updateAssoc_self {κ α : Type} [DecidableEq κ] (k : κ) (v : α)
    (l : List (κ × α)) : lookupAssoc k (updateAssoc k v l) = some v := by
  induction l with
  | nil => simp [lookupAssoc, updateAssoc]
  | cons hd tl ih =>
    obtain ⟨k', v'⟩ := hd
    by_cases h : k = k' <;> simp [lookupAssoc, updateAssoc, h, ih]

theorem lookupAssoc_updateAssoc_other {κ α : Type} [DecidableEq κ] {k k' : κ} (v : α)
    (l : List (κ × α)) (hne : k' ≠ k) :
    lookupAssoc k' (updateAssoc k v l) = lookupAssoc k' l := by
  induction l with
  | nil => simp [lookupAssoc, updateAssoc, hne]
  | cons hd tl ih =>
    obtain ⟨k'', v''⟩ := hd
    by_cases h : k = k''
    · subst h
      simp [lookupAssoc, updateAssoc, hne]
    · by_cases h' : k' = k'' <;> simp [lookupAssoc, updateAssoc, h, h', ih]

/-! ## C10: the zero guard of `calculate_block_delay` -/

/-- C10: for every `delay_period`, `calculate_block_delay` with a zero
`max_expected_time_per_block` returns `0` rather than failing: the division is
explicitly guarded, so a zero expected block time degenerates the block-delay
requirement to no height delay. -/
theorem calculate_block_delay_zero_divisor (delay mx : Duration)
    (h : mx.is_zero = true) : calculate_block_delay delay mx = 0 := by
  simp [calculate_block_delay, h]

theorem calculate_block_delay_zero_divisor_witness :
    Duration.is_zero ⟨0, 0⟩ = true ∧ calculate_block_delay ⟨10, 0⟩ ⟨0, 0⟩ = 0 :=
  ⟨rfl, calculate_block_delay_zero_divisor ⟨10, 0⟩ ⟨0, 0⟩ rfl⟩

/-! ## C5: the error cases of `MsgConnectionOpenTry::try_from` -/

/-- C5: `MsgConnectionOpenTry::try_from(raw)` returns `EmptyVersions` when
`raw.counterparty_versions` is empty; `MissingProofHeight` when
`raw.proof_height` is absent or invalid (such as revision `(1,0)`, whose
`revision_height` is `0`) and the earlier conversion steps succeed; and
`InvalidProof` when `raw.proof_init` is empty and the steps before it succeed. -/
theorem conn_open_try_error_cases :
    (∀ raw : RawMsgConnectionOpenTry, raw.counterparty_versions = [] →
      MsgConnectionOpenTry.tryFromRaw raw = .error .emptyVersions) ∧
    (∀ (raw : RawMsgConnectionOpenTry) (vs : List ConnVersion) (cid : ClientId)
      (st : ProtoAny) (rc : RawConnCounterparty) (cp : ConnCounterparty)
      (p1 p2 p3 : CommitmentProofBytes),
      mapMExcept ConnVersion.tryFromRaw raw.counterparty_versions = .ok vs → vs ≠ [] →
      ClientId.parse raw.client_id = .ok cid →
      raw.client_state = some st →
      raw.counterparty = some rc → ConnCounterparty.tryFromRaw rc = .ok cp →
      CommitmentProofBytes.tryFrom raw.proof_init = .ok p1 →
      CommitmentProofBytes.tryFrom raw.proof_client = .ok p2 →
      CommitmentProofBytes.tryFrom raw.proof_consensus = .ok p3 →
      (raw.proof_height = none ∨
        ∃ rh : RawHeight, raw.proof_height = some rh ∧ rh.revision_height = 0) →
      MsgConnectionOpenTry.tryFromRaw raw = .error .missingProofHeight) ∧
    (∀ (raw : RawMsgConnectionOpenTry) (vs : List ConnVersion) (cid : ClientId)
      (st : ProtoAny) (rc : RawConnCounterparty) (cp : ConnCounterparty),
      mapMExcept ConnVersion.tryFromRaw raw.counterparty_versions = .ok vs → vs ≠ [] →
      ClientId.parse raw.client_id = .ok cid →
      raw.client_state = some st →
      raw.counterparty = some rc → ConnCounterparty.tryFromRaw rc = .ok cp →
      raw.proof_init = [] →
      MsgConnectionOpenTry.tryFromRaw raw = .error .invalidProof) := by
  refine ⟨?_, ?_, ?_⟩
  · intro raw hv
    simp [MsgConnectionOpenTry.tryFromRaw, hv, mapMExcept, pure, Except.pure, bind,
      Except.bind]
  · intro raw vs cid st rc cp p1 p2 p3 hvs hne hcid hst hrc hcp hp1 hp2 hp3 hph
    have hbind : raw.proof_height.bind Height.tryFromRaw = none := by
      rcases hph with h | ⟨rh, hrh, hzero⟩
      · simp [h]
      · simp [hrh, Height.tryFromRaw, hzero]
    simp [MsgConnectionOpenTry.tryFromRaw, hvs, hne, hcid, hst, hrc, hcp, hp1, hp2, hp3,
      hbind, pure, Except.pure, bind, Except.bind]
  · intro raw vs cid st rc cp hvs hne hcid hst hrc hcp hpi
    have hinit : CommitmentProofBytes.tryFrom raw.proof_init = .error .emptyMerkleProof := by
      simp [CommitmentProofBytes.tryFrom, hpi]
    simp [MsgConnectionOpenTry.tryFromRaw, hvs, hne, hcid, hst, hrc, hcp, hinit,
      pure, Except.pure, bind, Except.bind]

/-- A concrete well-formed raw counterparty (mirroring the repository's dummy
test data). -/
def rawConnCptyDummy : RawConnCounterparty :=
  ⟨"07-tendermint-0", "connection-0", some [105, 98, 99]⟩

/-- A concrete well-formed `RawMsgConnectionOpenTry` (mirroring the
repository's dummy test data). -/
def rawConnOpenTryDummy : RawMsgConnectionOpenTry :=
  { client_id := "07-tendermint-0"
    previous_connection_id := "connection-0"
    client_state := some ⟨"/mock.ClientState", [1]⟩
    counterparty := some rawConnCptyDummy
    delay_period := 0
    counterparty_versions := [⟨"1", ["ORDER_ORDERED", "ORDER_UNORDERED"]⟩]
    proof_height := some ⟨0, 10⟩
    proof_init := [1, 2]
    proof_client := [1, 2]
    proof_consensus := [1, 2]
    consensus_height := some ⟨0, 34⟩
    signer := "cosmos1signer"
    host_consensus_state_proof := [] }

theorem conn_open_try_error_cases_witness :
    MsgConnectionOpenTry.tryFromRaw { rawConnOpenTryDummy with counterparty_versions := [] } =
      .error .emptyVersions ∧
    MsgConnectionOpenTry.tryFromRaw { rawConnOpenTryDummy with proof_height := some ⟨1, 0⟩ } =
      .error .missingProofHeight ∧
    MsgConnectionOpenTry.tryFromRaw { rawConnOpenTryDummy with proof_init := [] } =
      .error .invalidProof :=
  ⟨conn_open_try_error_cases.1 _ rfl,
   conn_open_try_error_cases.2.1 _ [⟨"1", ["ORDER_ORDERED", "ORDER_UNORDERED"]⟩]
     ⟨"07-tendermint-0"⟩ ⟨"/mock.ClientState", [1]⟩ rawConnCptyDummy
     ⟨⟨"07-tendermint-0"⟩, some ⟨"connection-0"⟩, ⟨[105, 98, 99]⟩⟩ ⟨[1, 2]⟩ ⟨[1, 2]⟩ ⟨[1, 2]⟩
     (by rfl) (by decide) (by rfl) (by rfl) (by rfl) (by rfl) (by rfl) (by rfl) (by rfl)
     (Or.inr ⟨⟨1, 0⟩, rfl, rfl⟩),
   conn_open_try_error_cases.2.2 _ [⟨"1", ["ORDER_ORDERED", "ORDER_UNORDERED"]⟩]
     ⟨"07-tendermint-0"⟩ ⟨"/mock.ClientState", [1]⟩ rawConnCptyDummy
     ⟨⟨"07-tendermint-0"⟩, some ⟨"connection-0"⟩, ⟨[105, 98, 99]⟩⟩
     (by rfl) (by decide) (by rfl) (by rfl) (by rfl) (by rfl) (by rfl)⟩

/-! ## The `ChanCloseConfirm` handler: C1, C2, C7 -/

theorem foldl_log_message_channelEnds (l : List String) (c : MockContext) :
    (l.foldl (fun c m => c.log_message m) c).channelEnds = c.channelEnds := by
  induction l generalizing c with
  | nil => rfl
  | cons hd tl ih => exact ih _

theorem foldl_log_message_events (l : List String) (c : MockContext) :
    (l.foldl (fun c m => c.log_message m) c).events = c.events := by
  induction l generalizing c with
  | nil => rfl
  | cons hd tl ih => exact ih _

/-- C1: for every execution context in which the channel end stored at
`(port_id_on_b, chan_id_on_b)` exists with a counterparty channel id set, and
the module's close-confirm callback returns no extra events, a successful
`chan_close_confirm_execute` stores that channel end with its state set to
`Closed` (all other fields unchanged, all other channel ends untouched) and
emits exactly two events in this order: `Message(Channel)` first, then
`CloseConfirmChannel`. -/
theorem chan_close_confirm_execute_happy_path
    (ctx : MockContext) (module : ModuleCallbacks) (msg : MsgChannelCloseConfirm)
    (ce : ChannelEnd) (cid_a : ChannelId) (extras : ModuleExtras) (ctx' : MockContext)
    (hce : ctx.channel_end msg.port_id_on_b msg.chan_id_on_b = .ok ce)
    (hcp : ce.counterparty.channel_id = some cid_a)
    (hmod : module.onChanCloseConfirmExecute msg.port_id_on_b msg.chan_id_on_b = .ok extras)
    (hnoev : extras.events = [])
    (hok : chan_close_confirm_execute ctx module msg = (ctx', none)) :
    lookupAssoc (msg.port_id_on_b, msg.chan_id_on_b) ctx'.channelEnds =
      some { ce with state := .Closed } ∧
    (∀ k, k ≠ (msg.port_id_on_b, msg.chan_id_on_b) →
      lookupAssoc k ctx'.channelEnds = lookupAssoc k ctx.channelEnds) ∧
    ∃ ev : CloseConfirm, ctx'.events = ctx.events ++
      [IbcEvent.Message .Channel, IbcEvent.CloseConfirmChannel ev] := by
  unfold chan_close_confirm_execute at hok
  rw [hmod, hce] at hok
  simp only [ChannelEnd.counterparty] at hok hcp
  rw [hcp] at hok
  cases hhops : ce.connection_hops with
  | nil => rw [hhops] at hok; simp at hok
  | cons hop rest =>
    rw [hhops, hnoev] at hok
    simp only [Prod.mk.injEq, and_true] at hok
    subst hok
    refine ⟨?_, ?_, ?_⟩
    · rw [foldl_log_message_channelEnds]
      simp only [List.foldl_nil, MockContext.emit_ibc_event, MockContext.log_message,
        MockContext.store_channel, ChannelEnd.set_state]
      rw [hhops]
      exact lookupAssoc_updateAssoc_self _ _ _
    · intro k hk
      rw [foldl_log_message_channelEnds]
      simp only [List.foldl_nil, MockContext.emit_ibc_event, MockContext.log_message,
        MockContext.store_channel, ChannelEnd.set_state]
      exact lookupAssoc_updateAssoc_other _ _ hk
    · refine ⟨⟨msg.port_id_on_b, msg.chan_id_on_b, ce.remote.port_id, cid_a, hop⟩, ?_⟩
      rw [foldl_log_message_events]
      simp [MockContext.emit_ibc_event, MockContext.log_message, MockContext.store_channel]

/-- A concrete context whose stored channel end lacks a counterparty channel
id: the internal-error path of `chan_close_confirm_execute`. -/
def ctxNoCptyChan : MockContext :=
  { channelEnds :=
      [((⟨"transfer"⟩, ⟨"channel-0"⟩),
        ⟨.Open, .Unordered, ⟨⟨"transfer"⟩, none⟩, [⟨"connection-0"⟩], "ics20-1"⟩)]
    connectionEnds := []
    clientStates := []
    consensusStates := []
    signerOk := fun _ => true
    events := []
    logs := [] }

/-- A module whose close-confirm callbacks succeed and add nothing. -/
def moduleNoop : ModuleCallbacks :=
  { onChanCloseConfirmValidate := fun _ _ => .ok ()
    onChanCloseConfirmExecute := fun _ _ => .ok ⟨[], []⟩ }

def msgCloseConfirmDummy : MsgChannelCloseConfirm :=
  ⟨⟨"transfer"⟩, ⟨"channel-0"⟩, ⟨[1]⟩, ⟨0, 10⟩, "cosmos1signer"⟩

/-- C2 counterexample: on the context above, `chan_close_confirm_execute`
surfaces an error, yet the channel-end store has changed: the handler stored
the `Closed` channel end before reporting the missing counterparty channel id. -/
theorem chan_close_confirm_execute_error_changes_state :
    (chan_close_confirm_execute ctxNoCptyChan moduleNoop msgCloseConfirmDummy).2.isSome = true ∧
    (chan_close_confirm_execute ctxNoCptyChan moduleNoop msgCloseConfirmDummy).1.channelEnds ≠
      ctxNoCptyChan.channelEnds := by
  exact ⟨by rfl, by decide⟩

/-- C2 (amended): if `chan_close_confirm_execute` returns an error then the
handler has emitted no events, and the state is unchanged except on the
internal-error paths reached after the store: when the stored channel end
exists but lacks a counterparty channel id (or has no connection hops), the
channel end at the message's port and channel has already been stored with its
state set to `Closed`. -/
theorem chan_close_confirm_execute_error_cases
    (ctx : MockContext) (module : ModuleCallbacks) (msg : MsgChannelCloseConfirm)
    (ctx' : MockContext) (e : ContextError)
    (h : chan_close_confirm_execute ctx module msg = (ctx', some e)) :
    ctx'.events = ctx.events ∧
    (ctx'.channelEnds = ctx.channelEnds ∨
      ∃ ce : ChannelEnd,
        ctx.channel_end msg.port_id_on_b msg.chan_id_on_b = .ok ce ∧
        (ce.counterparty.channel_id = none ∨ ce.connection_hops = []) ∧
        ctx'.channelEnds =
          updateAssoc (msg.port_id_on_b, msg.chan_id_on_b) { ce with state := .Closed }
            ctx.channelEnds) := by
  unfold chan_close_confirm_execute at h
  cases hmod : module.onChanCloseConfirmExecute msg.port_id_on_b msg.chan_id_on_b with
  | error em =>
    rw [hmod] at h
    obtain ⟨hctx, -⟩ := Prod.mk.injEq .. ▸ h
    subst hctx
    exact ⟨rfl, Or.inl rfl⟩
  | ok extras =>
    rw [hmod] at h
    cases hce : ctx.channel_end msg.port_id_on_b msg.chan_id_on_b with
    | error ec =>
      rw [hce] at h
      obtain ⟨hctx, -⟩ := Prod.mk.injEq .. ▸ h
      subst hctx
      exact ⟨rfl, Or.inl rfl⟩
    | ok ce =>
      rw [hce] at h
      cases hcp : ce.counterparty.channel_id with
      | none =>
        simp only [ChannelEnd.counterparty] at h hcp
        rw [hcp] at h
        obtain ⟨hctx, -⟩ := Prod.mk.injEq .. ▸ h
        subst hctx
        refine ⟨rfl, Or.inr ⟨ce, rfl, Or.inl ?_, rfl⟩⟩
        simpa [ChannelEnd.counterparty] using hcp
      | some cid =>
        simp only [ChannelEnd.counterparty] at h hcp
        rw [hcp] at h
        cases hhops : ce.connection_hops with
        | nil =>
          rw [hhops] at h
          obtain ⟨hctx, -⟩ := Prod.mk.injEq .. ▸ h
          subst hctx
          exact ⟨rfl, Or.inr ⟨ce, rfl, Or.inr hhops, rfl⟩⟩
        | cons hop rest =>
          rw [hhops] at h
          obtain ⟨-, hnone⟩ := Prod.mk.injEq .. ▸ h
          exact absurd hnone (by simp)

theorem chan_close_confirm_execute_error_cases_witness :
    (chan_close_confirm_execute ctxNoCptyChan moduleNoop msgCloseConfirmDummy).1.events =
      ctxNoCptyChan.events ∧
    ((chan_close_confirm_execute ctxNoCptyChan moduleNoop msgCloseConfirmDummy).1.channelEnds =
        ctxNoCptyChan.channelEnds ∨
      ∃ ce : ChannelEnd,
        ctxNoCptyChan.channel_end msgCloseConfirmDummy.port_id_on_b
            msgCloseConfirmDummy.chan_id_on_b = .ok ce ∧
        (ce.counterparty.channel_id = none ∨ ce.connection_hops = []) ∧
        (chan_close_confirm_execute ctxNoCptyChan moduleNoop
              msgCloseConfirmDummy).1.channelEnds =
          updateAssoc (msgCloseConfirmDummy.port_id_on_b, msgCloseConfirmDummy.chan_id_on_b)
            { ce with state := .Closed } ctxNoCptyChan.channelEnds) :=
  chan_close_confirm_execute_error_cases ctxNoCptyChan moduleNoop msgCloseConfirmDummy _
    (.channelError (.other
      "internal error: ChannelEnd lacks a counterparty channel id in CloseInit")) (by rfl)

/-- C1 witness data: the happy-path context with counterparty channel id set. -/
def ctxHappyChan : MockContext :=
  { ctxNoCptyChan with
    channelEnds :=
      [((⟨"transfer"⟩, ⟨"channel-0"⟩),
        ⟨.Open, .Unordered, ⟨⟨"transfer"⟩, some ⟨"channel-1"⟩⟩, [⟨"connection-0"⟩],
          "ics20-1"⟩)] }

theorem chan_close_confirm_execute_happy_path_witness :
    lookupAssoc (msgCloseConfirmDummy.port_id_on_b, msgCloseConfirmDummy.chan_id_on_b)
        (chan_close_confirm_execute ctxHappyChan moduleNoop msgCloseConfirmDummy).1.channelEnds =
      some ⟨.Closed, .Unordered, ⟨⟨"transfer"⟩, some ⟨"channel-1"⟩⟩, [⟨"connection-0"⟩],
        "ics20-1"⟩ ∧
    (∀ k, k ≠ (msgCloseConfirmDummy.port_id_on_b, msgCloseConfirmDummy.chan_id_on_b) →
      lookupAssoc k
          (chan_close_confirm_execute ctxHappyChan moduleNoop
            msgCloseConfirmDummy).1.channelEnds =
        lookupAssoc k ctxHappyChan.channelEnds) ∧
    ∃ ev : CloseConfirm,
      (chan_close_confirm_execute ctxHappyChan moduleNoop msgCloseConfirmDummy).1.events =
        ctxHappyChan.events ++
          [IbcEvent.Message .Channel, IbcEvent.CloseConfirmChannel ev] :=
  chan_close_confirm_execute_happy_path ctxHappyChan moduleNoop msgCloseConfirmDummy
    ⟨.Open, .Unordered, ⟨⟨"transfer"⟩, some ⟨"channel-1"⟩⟩, [⟨"connection-0"⟩], "ics20-1"⟩
    ⟨"channel-1"⟩ ⟨[], []⟩ _ (by rfl) (by rfl) (by rfl) (by rfl) (by rfl)

/-- C7: `chan_close_confirm_validate` rejects every message for which the
locally stored channel end is already `Closed`: a validated `CloseConfirm`
never performs a repeated transition out of the terminal `Closed` state. -/
theorem chan_close_confirm_validate_rejects_closed
    (ctx : MockContext) (module : ModuleCallbacks) (msg : MsgChannelCloseConfirm)
    (ce : ChannelEnd)
    (hce : ctx.channel_end msg.port_id_on_b msg.chan_id_on_b = .ok ce)
    (hclosed : ce.state = .Closed) :
    ∃ e : ContextError, chan_close_confirm_validate ctx module msg = .error e := by
  have hnc : ce.verify_not_closed = .error (.invalidState true) := by
    simp [ChannelEnd.verify_not_closed, hclosed]
  unfold chan_close_confirm_validate chanCloseConfirmValidateInner
  cases hsig : ctx.validate_message_signer msg.signer with
  | error es => exact ⟨es, by simp [bind, Except.bind, hsig]⟩
  | ok u =>
    refine ⟨.channelError (.invalidState true), ?_⟩
    simp [bind, Except.bind, hsig, hce, hnc]

/-- A context whose stored channel end is already `Closed`. -/
def ctxClosedChan : MockContext :=
  { ctxNoCptyChan with
    channelEnds :=
      [((⟨"transfer"⟩, ⟨"channel-0"⟩),
        ⟨.Closed, .Unordered, ⟨⟨"transfer"⟩, some ⟨"channel-1"⟩⟩, [⟨"connection-0"⟩],
          "ics20-1"⟩)] }

theorem chan_close_confirm_validate_rejects_closed_witness :
    ∃ e : ContextError,
      chan_close_confirm_validate ctxClosedChan moduleNoop msgCloseConfirmDummy = .error e :=
  chan_close_confirm_validate_rejects_closed ctxClosedChan moduleNoop msgCloseConfirmDummy
    ⟨.Closed, .Unordered, ⟨⟨"transfer"⟩, some ⟨"channel-1"⟩⟩, [⟨"connection-0"⟩], "ics20-1"⟩
    (by rfl) (by rfl)

/-! ## Coin parsing: C3, C9 -/

theorem takeWhile_append_of_all {p : Char → Bool} (a b : List Char)
    (ha : a.all p) : (a ++ b).takeWhile p = a ++ b.takeWhile p := by
  induction a with
  | nil => simp
  | cons x xs ih =>
    simp only [List.all_cons, Bool.and_eq_true] at ha
    simp [List.takeWhile, ha.1, ih ha.2]

theorem dropWhile_append_of_all {p : Char → Bool} (a b : List Char)
    (ha : a.all p) : (a ++ b).dropWhile p = b.dropWhile p := by
  induction a with
  | nil => simp
  | cons x xs ih =>
    simp only [List.all_cons, Bool.and_eq_true] at ha
    simp [List.dropWhile, ha.1, ih ha.2]

theorem takeWhile_all {p : Char → Bool} (l : List Char) : (l.takeWhile p).all p := by
  induction l with
  | nil => simp
  | cons x xs ih =>
    by_cases h : p x <;> simp [List.takeWhile, h, ih]

theorem takeWhile_eq_self_of_all {p : Char → Bool} (l : List Char) (h : l.all p) :
    l.takeWhile p = l := by
  induction l with
  | nil => rfl
  | cons x xs ih =>
    simp only [List.all_cons, Bool.and_eq_true] at h
    simp [List.takeWhile, h.1, ih h.2]

theorem dropWhile_eq_self_of_head {p : Char → Bool} (l : List Char)
    (h : ∀ c, l.head? = some c → p c = false) : l.dropWhile p = l := by
  cases l with
  | nil => rfl
  | cons x xs => simp [List.dropWhile, h x rfl]

theorem takeWhile_eq_nil_of_head {p : Char → Bool} (l : List Char)
    (h : ∀ c, l.head? = some c → p c = false) : l.takeWhile p = [] := by
  cases l with
  | nil => rfl
  | cons x xs => simp [List.takeWhile, h x rfl]

theorem all_of_dropWhile_all {p q : Char → Bool} (l : List Char) (h : l.all q) :
    (l.dropWhile p).all q := by
  induction l with
  | nil => simp
  | cons x xs ih =>
    simp only [List.all_cons, Bool.and_eq_true] at h
    by_cases hp : p x
    · simp [List.dropWhile, hp, ih h.2]
    · simp [List.dropWhile, hp, h.1, h.2]

theorem all_dropLast {p : Char → Bool} (l : List Char) (h : l.all p) :
    l.dropLast.all p := by
  induction l with
  | nil => simp
  | cons x xs ih =>
    cases xs with
    | nil => simp
    | cons y ys =>
      simp only [List.all_cons, Bool.and_eq_true] at h
      simp only [List.dropLast_cons₂, List.all_cons, Bool.and_eq_true]
      exact ⟨h.1, by simpa using ih (by simp [h.2.1, h.2.2])⟩

theorem isDenomChar_of_isDigitChar {c : Char} (h : isDigitChar c = true) :
    isDenomChar c = true := by
  simp only [isDigitChar] at h
  simp [isDenomChar, h]

theorem dropWhile_eq_nil_all {p : Char → Bool} (l : List Char)
    (h : l.dropWhile p = []) : l.all p := by
  induction l with
  | nil => simp
  | cons x xs ih =>
    by_cases hp : p x
    · simp only [List.dropWhile, hp] at h
      simp [hp, ih h]
    · simp [List.dropWhile, hp] at h

/-- C3 (amended): `Coin::from_str(s)` (RawCoin parsing) succeeds if and only
if `s` consists of one or more digits followed by a non-empty denomination
over the code's character class `[a-zA-Z0-9/:\\._-]` (which includes digits
and the backslash, with no leading-letter or minimum-length requirement); on a
success where the denomination starts with a non-digit (so the regex split is
unambiguous), the amount is the decimal value of the digit prefix and the
denomination is the remainder. -/
theorem rawCoinFromStr_spec (s : String) :
    ((∃ c, rawCoinFromStr s = .ok c) ↔
      ∃ a b : List Char, s.data = a ++ b ∧ a ≠ [] ∧ a.all isDigitChar ∧ b ≠ [] ∧
        b.all isDenomChar) ∧
    (∀ a b : List Char, s.data = a ++ b → a ≠ [] → a.all isDigitChar → b ≠ [] →
      b.all isDenomChar → (∀ c0, b.head? = some c0 → isDigitChar c0 = false) →
      rawCoinFromStr s = .ok ⟨String.mk b, digitsToNat a⟩) := by
  constructor
  · constructor
    · rintro ⟨c, hc⟩
      unfold rawCoinFromStr at hc
      by_cases hd : s.data.takeWhile isDigitChar = []
      · simp [hd] at hc
      · by_cases hr : s.data.dropWhile isDigitChar = []
        · by_cases hlen : 2 ≤ (s.data.takeWhile isDigitChar).length
          · refine ⟨(s.data.takeWhile isDigitChar).dropLast,
              (s.data.takeWhile isDigitChar).drop
                ((s.data.takeWhile isDigitChar).length - 1), ?_, ?_, ?_, ?_, ?_⟩
            · conv_lhs => rw [← List.takeWhile_append_dropWhile (p := isDigitChar) (l := s.data)]
              rw [hr, List.append_nil, List.dropLast_eq_take, ← List.take_append_drop
                ((s.data.takeWhile isDigitChar).length - 1) (s.data.takeWhile isDigitChar)]
              simp
            · intro h
              rw [List.dropLast_eq_take] at h
              have := congrArg List.length h
              simp at this
              omega
            · exact all_dropLast _ (takeWhile_all _)
            · intro h
              have := congrArg List.length h
              simp at this
              omega
            · have hall : ((s.data.takeWhile isDigitChar).drop
                  ((s.data.takeWhile isDigitChar).length - 1)).all isDigitChar := by
                have := takeWhile_all (p := isDigitChar) (l := s.data)
                exact List.all_eq_true.mpr fun c hc =>
                  List.all_eq_true.mp this c (List.mem_of_mem_drop hc)
              exact List.all_eq_true.mpr fun c hc =>
                isDenomChar_of_isDigitChar (List.all_eq_true.mp hall c hc)
          · simp [hd, hr, hlen] at hc
        · by_cases hden : (s.data.dropWhile isDigitChar).all isDenomChar
          · exact ⟨s.data.takeWhile isDigitChar, s.data.dropWhile isDigitChar,
              (List.takeWhile_append_dropWhile ..).symm, hd, takeWhile_all _, hr, hden⟩
          · simp [hd, hr, hden] at hc
    · rintro ⟨a, b, hs, ha, hadig, hb, hbden⟩
      simp only [rawCoinFromStr, hs]
      rw [takeWhile_append_of_all a b hadig, dropWhile_append_of_all a b hadig]
      by_cases hr : b.dropWhile isDigitChar = []
      · have hbdig : b.all isDigitChar := dropWhile_eq_nil_all b hr
        rw [takeWhile_eq_self_of_all b hbdig, hr]
        have hne : a ++ b ≠ [] := by simp [ha]
        have hlen : 2 ≤ (a ++ b).length := by
          rcases a with _ | ⟨x, xs⟩
          · exact absurd rfl ha
          · rcases b with _ | ⟨y, ys⟩
            · exact absurd rfl hb
            · simp
              omega
        exact ⟨_, by rw [if_neg hne, if_pos rfl, if_pos hlen]⟩
      · have hne : a ++ b.takeWhile isDigitChar ≠ [] := by
          intro h
          exact ha (List.append_eq_nil.mp h).1
        have hden : (b.dropWhile isDigitChar).all isDenomChar := all_of_dropWhile_all b hbden
        exact ⟨_, by rw [if_neg hne, if_neg hr, if_pos hden]⟩
  · intro a b hs ha hadig hb hbden hbhead
    simp only [rawCoinFromStr, hs]
    rw [takeWhile_append_of_all a b hadig, dropWhile_append_of_all a b hadig,
      takeWhile_eq_nil_of_head b hbhead, dropWhile_eq_self_of_head b hbhead, List.append_nil]
    have hne : a ≠ [] := ha
    simp [hne, hb, hbden]

/-- C3 counterexample: `"11"` is accepted by `Coin::from_str` (amount `1`,
denomination `"1"`), yet it does not match the specification's regex
`^([0-9]+)([a-zA-Z][a-zA-Z0-9/:._-]{2,127})$`, whose denomination must begin
with a letter and span at least 3 characters. -/
theorem rawCoinFromStr_spec_regex_divergence :
    rawCoinFromStr "11" = .ok ⟨"1", 1⟩ ∧ specCoinRegexMatch "11" = false :=
  ⟨by rfl, by rfl⟩

theorem rawCoinFromStr_spec_witness :
    ((∃ c, rawCoinFromStr "123stake" = .ok c) ↔
      ∃ a b : List Char, "123stake".data = a ++ b ∧ a ≠ [] ∧ a.all isDigitChar ∧ b ≠ [] ∧
        b.all isDenomChar) ∧
    rawCoinFromStr "123stake" =
      .ok ⟨String.mk ['s', 't', 'a', 'k', 'e'], digitsToNat ['1', '2', '3']⟩ :=
  ⟨(rawCoinFromStr_spec "123stake").1,
   (rawCoinFromStr_spec "123stake").2 ['1', '2', '3'] ['s', 't', 'a', 'k', 'e']
     (by decide) (by decide) (by decide) (by decide) (by decide)
     (by intro c0 h; simp at h; subst h; decide)⟩

/-! ## C9: comma-separated coin lists -/

theorem splitOnComma_ne_nil (cs : List Char) : splitOnComma cs ≠ [] := by
  induction cs with
  | nil => simp [splitOnComma]
  | cons c rest ih =>
    by_cases h : c = ','
    · simp [splitOnComma, h]
    · simp only [splitOnComma, if_neg h]
      cases hs : splitOnComma rest with
      | nil => simp
      | cons x xs => simp

theorem splitOnComma_no_comma (xs : List Char) (h : ∀ c ∈ xs, c ≠ ',') :
    splitOnComma xs = [xs] := by
  induction xs with
  | nil => rfl
  | cons x rest ih =>
    have hx : x ≠ ',' := h x (by simp)
    have hrest := ih fun c hc => h c (by simp [hc])
    simp [splitOnComma, hx, hrest]

theorem splitOnComma_append (xs ys : List Char) (h : ∀ c ∈ xs, c ≠ ',') :
    splitOnComma (xs ++ ',' :: ys) = xs :: splitOnComma ys := by
  induction xs with
  | nil => simp [splitOnComma]
  | cons x rest ih =>
    have hx : x ≠ ',' := h x (by simp)
    have hrest := ih fun c hc => h c (by simp [hc])
    simp [splitOnComma, hx, hrest]

/-- Successful coin parsing implies the literal holds no comma (all its
characters are digits or denomination characters). -/
theorem rawCoinFromStr_no_comma (s : String) (c : RawCoin)
    (h : rawCoinFromStr s = .ok c) : ∀ ch ∈ s.data, ch ≠ ',' := by
  obtain ⟨a, b, hs, -, hadig, -, hbden⟩ := (rawCoinFromStr_spec s).1.mp ⟨c, h⟩
  intro ch hch
  rw [hs] at hch
  rcases List.mem_append.mp hch with hin | hin
  · have := List.all_eq_true.mp hadig ch hin
    intro hcomma
    subst hcomma
    simp [isDigitChar] at this
  · have := List.all_eq_true.mp hbden ch hin
    intro hcomma
    subst hcomma
    simp [isDenomChar] at this

theorem strData_append (a b : String) : (a ++ b).data = a.data ++ b.data := rfl

/-- C9: for every non-empty sequence of valid coin literals joined by commas,
`Coin::from_string_list` returns exactly those coins in the given order. -/
theorem rawCoinFromStringList_joined (ss : List String) (cs : List RawCoin)
    (hne : ss ≠ [])
    (hall : List.Forall₂ (fun s c => rawCoinFromStr s = .ok c) ss cs) :
    rawCoinFromStringList (commaJoin ss) = .ok cs := by
  induction hall with
  | nil => exact absurd rfl hne
  | cons hsc htail ih =>
    rename_i s c ss' cs'
    cases htail with
    | nil =>
      show rawCoinFromStringList (commaJoin [s]) = .ok [c]
      unfold rawCoinFromStringList commaJoin
      rw [splitOnComma_no_comma s.data (rawCoinFromStr_no_comma s c hsc)]
      simp only [mapMExcept]
      have : String.mk s.data = s := rfl
      rw [this, hsc]
    | cons hsc2 htail2 =>
      rename_i s2 c2 ss2 cs2
      have hjoin : (commaJoin (s :: s2 :: ss2)).data =
          s.data ++ ',' :: (commaJoin (s2 :: ss2)).data := by
        show ((s ++ ",") ++ commaJoin (s2 :: ss2)).data = _
        rw [strData_append, strData_append]
        simp
      unfold rawCoinFromStringList
      rw [hjoin, splitOnComma_append s.data _ (rawCoinFromStr_no_comma s c hsc)]
      have ihres := ih (by simp)
      unfold rawCoinFromStringList at ihres
      simp only [mapMExcept]
      have hmk : String.mk s.data = s := rfl
      rw [hmk, hsc, ihres]

theorem rawCoinFromStringList_joined_witness :
    rawCoinFromStringList (commaJoin ["123stake", "1a1", "999den0m"]) =
      .ok [⟨"stake", 123⟩, ⟨"a1", 1⟩, ⟨"den0m", 999⟩] :=
  rawCoinFromStringList_joined ["123stake", "1a1", "999den0m"]
    [⟨"stake", 123⟩, ⟨"a1", 1⟩, ⟨"den0m", 999⟩] (by simp)
    (.cons (by rfl) (.cons (by rfl) (.cons (by rfl) .nil)))

/-! ## C6: raw / domain round trips -/

theorem clientId_parse_rt {s : String} {c : ClientId} (h : ClientId.parse s = .ok c) :
    c.toStr = s ∧ ClientId.parse c.toStr = .ok c := by
  unfold ClientId.parse at h
  split at h
  · cases h
    exact ⟨rfl, by rw [ClientId.toStr]; unfold ClientId.parse; split <;> simp_all⟩
  · exact absurd h (by simp)

theorem connectionId_parse_rt {s : String} {c : ConnectionId}
    (h : ConnectionId.parse s = .ok c) :
    c.toStr = s ∧ ConnectionId.parse c.toStr = .ok c := by
  unfold ConnectionId.parse at h
  split at h
  · cases h
    exact ⟨rfl, by rw [ConnectionId.toStr]; unfold ConnectionId.parse; split <;> simp_all⟩
  · exact absurd h (by simp)

theorem channelId_parse_rt {s : String} {c : ChannelId} (h : ChannelId.parse s = .ok c) :
    c.toStr = s ∧ ChannelId.parse c.toStr = .ok c := by
  unfold ChannelId.parse at h
  split at h
  · cases h
    exact ⟨rfl, by rw [ChannelId.toStr]; unfold ChannelId.parse; split <;> simp_all⟩
  · exact absurd h (by simp)

theorem portId_parse_rt {s : String} {c : PortId} (h : PortId.parse s = .ok c) :
    c.toStr = s ∧ PortId.parse c.toStr = .ok c := by
  unfold PortId.parse at h
  split at h
  · cases h
    exact ⟨rfl, by rw [PortId.toStr]; unfold PortId.parse; split <;> simp_all⟩
  · exact absurd h (by simp)

theorem connVersion_toRaw_of_tryFromRaw {v : RawVersion} {w : ConnVersion}
    (h : ConnVersion.tryFromRaw v = .ok w) : w.toRaw = v := by
  unfold ConnVersion.tryFromRaw at h
  split at h
  · exact absurd h (by simp)
  · cases h; rfl

theorem mapMExcept_versions_rt {l : List RawVersion} {vs : List ConnVersion}
    (h : mapMExcept ConnVersion.tryFromRaw l = .ok vs) :
    vs.map ConnVersion.toRaw = l := by
  induction l generalizing vs with
  | nil =>
    simp only [mapMExcept] at h
    cases h
    rfl
  | cons x xs ih =>
    simp only [mapMExcept] at h
    cases hx : ConnVersion.tryFromRaw x with
    | error e => rw [hx] at h; exact absurd h (by simp)
    | ok y =>
      rw [hx] at h
      cases hxs : mapMExcept ConnVersion.tryFromRaw xs with
      | error e => rw [hxs] at h; simp at h
      | ok ys =>
        rw [hxs] at h
        simp only [Except.ok.injEq] at h
        subst h
        simp [connVersion_toRaw_of_tryFromRaw hx, ih hxs]

theorem CommitmentProofBytes.tryFrom_rt {b : List Nat} {p : CommitmentProofBytes}
    (h : CommitmentProofBytes.tryFrom b = .ok p) : p.intoVec = b := by
  unfold CommitmentProofBytes.tryFrom at h
  split at h
  · exact absurd h (by simp)
  · cases h; rfl

theorem Height.tryFromRaw_rt {r : RawHeight} {h : Height}
    (hh : Height.tryFromRaw r = some h) :
    h.toRaw = r ∧ h.revision_height ≠ 0 := by
  unfold Height.tryFromRaw at hh
  split at hh
  · exact absurd hh (by simp)
  · cases hh
    next hne => exact ⟨rfl, hne⟩

theorem connCounterparty_toRaw_of_tryFromRaw {rc : RawConnCounterparty}
    {cp : ConnCounterparty} (h : ConnCounterparty.tryFromRaw rc = .ok cp) :
    cp.toRaw = rc := by
  unfold ConnCounterparty.tryFromRaw at h
  simp only [bind, Except.bind, pure, Except.pure] at h
  by_cases hconn : rc.connection_id = ""
  · rw [if_pos hconn] at h
    cases hcid : ClientId.parse rc.client_id with
    | error e => rw [hcid] at h; simp at h
    | ok cid =>
      rw [hcid] at h
      try dsimp only at h
      cases hpfx : rc.prefixRaw with
      | none => rw [hpfx] at h; simp at h
      | some b =>
        rw [hpfx] at h
        try dsimp only at h
        cases hb : CommitmentPrefixBytes.tryFrom b with
        | error e => rw [hb] at h; simp at h
        | ok p =>
          rw [hb] at h
          simp only [Except.ok.injEq] at h
          subst h
          have hbv : p.intoVec = b := by
            unfold CommitmentPrefixBytes.tryFrom at hb
            split at hb
            · exact absurd hb (by simp)
            · cases hb; rfl
          obtain ⟨rcid, rconn, rpfx⟩ := rc
          simp only at hconn hpfx
          subst hconn hpfx
          simp [ConnCounterparty.toRaw, (clientId_parse_rt hcid).1, hbv]
  · rw [if_neg hconn] at h
    cases hcn : ConnectionId.parse rc.connection_id with
    | error e => rw [hcn] at h; simp at h
    | ok cn =>
      rw [hcn] at h
      try dsimp only at h
      cases hcid : ClientId.parse rc.client_id with
      | error e => rw [hcid] at h; simp at h
      | ok cid =>
        rw [hcid] at h
        try dsimp only at h
        cases hpfx : rc.prefixRaw with
        | none => rw [hpfx] at h; simp at h
        | some b =>
          rw [hpfx] at h
          try dsimp only at h
          cases hb : CommitmentPrefixBytes.tryFrom b with
          | error e => rw [hb] at h; simp at h
          | ok p =>
            rw [hb] at h
            simp only [Except.ok.injEq] at h
            subst h
            have hbv : p.intoVec = b := by
              unfold CommitmentPrefixBytes.tryFrom at hb
              split at hb
              · exact absurd hb (by simp)
              · cases hb; rfl
            obtain ⟨rcid, rconn, rpfx⟩ := rc
            simp only at hpfx
            subst hpfx
            simp [ConnCounterparty.toRaw, (clientId_parse_rt hcid).1,
              (connectionId_parse_rt hcn).1, hbv]

theorem Duration.as_nanos_from_nanos (n : Nat) :
    (Duration.from_nanos n).as_nanos = n := by
  simp [Duration.from_nanos, Duration.as_nanos]
  omega

/-- A `MsgConnectionOpenTry` built from a valid raw message (with the
`delay_period` in `u64` range, as the raw field is) converts back to that very
raw message, as the source's own `to_and_from` test asserts. -/
theorem msgConnOpenTry_toRaw_of_tryFromRaw
    {raw : RawMsgConnectionOpenTry} {m : MsgConnectionOpenTry}
    (hb : raw.delay_period < 2 ^ 64)
    (h : MsgConnectionOpenTry.tryFromRaw raw = .ok m) : m.toRaw = raw := by
  unfold MsgConnectionOpenTry.tryFromRaw at h
  simp only [bind, Except.bind, pure, Except.pure] at h
  cases hv : mapMExcept ConnVersion.tryFromRaw raw.counterparty_versions with
  | error e => rw [hv] at h; simp at h
  | ok vs =>
  rw [hv] at h
  try dsimp only at h
  by_cases hvs : vs = []
  · rw [if_pos hvs] at h; simp at h
  rw [if_neg hvs] at h
  cases hcid : ClientId.parse raw.client_id with
  | error e => rw [hcid] at h; simp at h
  | ok cid =>
  rw [hcid] at h
  try dsimp only at h
  cases hst : raw.client_state with
  | none => rw [hst] at h; simp at h
  | some st =>
  rw [hst] at h
  try dsimp only at h
  cases hcty : raw.counterparty with
  | none => rw [hcty] at h; simp at h
  | some rc =>
  rw [hcty] at h
  try dsimp only at h
  cases hcp : ConnCounterparty.tryFromRaw rc with
  | error e => rw [hcp] at h; simp at h
  | ok cp =>
  rw [hcp] at h
  try dsimp only at h
  cases hp1 : CommitmentProofBytes.tryFrom raw.proof_init with
  | error e => rw [hp1] at h; simp at h
  | ok p1 =>
  rw [hp1] at h
  try dsimp only at h
  cases hp2 : CommitmentProofBytes.tryFrom raw.proof_client with
  | error e => rw [hp2] at h; simp at h
  | ok p2 =>
  rw [hp2] at h
  try dsimp only at h
  cases hp3 : CommitmentProofBytes.tryFrom raw.proof_consensus with
  | error e => rw [hp3] at h; simp at h
  | ok p3 =>
  rw [hp3] at h
  try dsimp only at h
  cases hph : raw.proof_height with
  | none => rw [hph] at h; simp at h
  | some rph =>
  rw [hph] at h
  dsimp only [Option.bind] at h
  cases hphh : Height.tryFromRaw rph with
  | none => rw [hphh] at h; simp at h
  | some ph =>
  rw [hphh] at h
  try dsimp only at h
  cases hch : raw.consensus_height with
  | none => rw [hch] at h; simp at h
  | some rch =>
  rw [hch] at h
  dsimp only [Option.bind] at h
  cases hchh : Height.tryFromRaw rch with
  | none => rw [hchh] at h; simp at h
  | some ch =>
  rw [hchh] at h
  try dsimp only at h
  by_cases hhost : raw.host_consensus_state_proof = []
  · rw [if_pos hhost] at h
    simp only [Except.ok.injEq] at h
    subst h
    simp only [MsgConnectionOpenTry.toRaw]
    apply RawMsgConnectionOpenTry.ext <;> (try dsimp only) <;>
      first
        | rfl
        | exact (clientId_parse_rt hcid).1
        | (rw [connCounterparty_toRaw_of_tryFromRaw hcp, hcty])
        | (rw [Duration.as_nanos_from_nanos, Nat.mod_eq_of_lt hb])
        | (rw [mapMExcept_versions_rt hv])
        | (rw [(Height.tryFromRaw_rt hphh).1, hph])
        | exact CommitmentProofBytes.tryFrom_rt hp1
        | exact CommitmentProofBytes.tryFrom_rt hp2
        | exact CommitmentProofBytes.tryFrom_rt hp3
        | (rw [(Height.tryFromRaw_rt hchh).1, hch])
        | (rw [hst])
        | (rw [hhost])
  · rw [if_neg hhost] at h
    cases hp4 : CommitmentProofBytes.tryFrom raw.host_consensus_state_proof with
    | error e => rw [hp4] at h; simp at h
    | ok p4 =>
    rw [hp4] at h
    try dsimp only at h
    simp only [Except.ok.injEq] at h
    subst h
    simp only [MsgConnectionOpenTry.toRaw]
    apply RawMsgConnectionOpenTry.ext <;> (try dsimp only) <;>
      first
        | rfl
        | exact (clientId_parse_rt hcid).1
        | (rw [connCounterparty_toRaw_of_tryFromRaw hcp, hcty])
        | (rw [Duration.as_nanos_from_nanos, Nat.mod_eq_of_lt hb])
        | (rw [mapMExcept_versions_rt hv])
        | (rw [(Height.tryFromRaw_rt hphh).1, hph])
        | exact CommitmentProofBytes.tryFrom_rt hp1
        | exact CommitmentProofBytes.tryFrom_rt hp2
        | exact CommitmentProofBytes.tryFrom_rt hp3
        | (rw [(Height.tryFromRaw_rt hchh).1, hch])
        | (rw [hst])
        | exact CommitmentProofBytes.tryFrom_rt hp4

theorem Height.tryFromRaw_toRaw {h : Height} (hnz : h.revision_height ≠ 0) :
    Height.tryFromRaw h.toRaw = some h := by
  unfold Height.tryFromRaw Height.toRaw
  rw [if_neg hnz]

theorem timeoutHeight_tryFromRaw_rt {r : Option RawHeight} {th : TimeoutHeight}
    (h : TimeoutHeight.tryFromRaw r = .ok th) :
    TimeoutHeight.tryFromRaw th.toRaw = .ok th := by
  unfold TimeoutHeight.tryFromRaw at h
  cases r with
  | none => cases h; rfl
  | some raw =>
    try dsimp only at h
    split at h
    · cases h; rfl
    · cases hh : Height.tryFromRaw raw with
      | none => rw [hh] at h; simp at h
      | some hgt =>
        rw [hh] at h
        simp only [Except.ok.injEq] at h
        subst h
        obtain ⟨-, hnz⟩ := Height.tryFromRaw_rt hh
        unfold TimeoutHeight.tryFromRaw TimeoutHeight.toRaw
        dsimp only
        rw [if_neg fun hc => hnz hc.2, Height.tryFromRaw_toRaw hnz]

theorem packet_tryFromRaw_rt {raw : RawPacket} {p : Packet}
    (h : Packet.tryFromRaw raw = .ok p) : Packet.tryFromRaw p.toRaw = .ok p := by
  unfold Packet.tryFromRaw at h
  simp only [bind, Except.bind, pure, Except.pure] at h
  cases hth : TimeoutHeight.tryFromRaw raw.timeout_height with
  | error e => rw [hth] at h; simp at h
  | ok th =>
  rw [hth] at h
  try dsimp only at h
  by_cases hto : th = .never ∧ raw.timeout_timestamp = 0
  · rw [if_pos hto] at h; simp at h
  rw [if_neg hto] at h
  cases hsp : PortId.parse raw.source_port with
  | error e => rw [hsp] at h; simp at h
  | ok pa =>
  rw [hsp] at h
  try dsimp only at h
  cases hsc : ChannelId.parse raw.source_channel with
  | error e => rw [hsc] at h; simp at h
  | ok ca =>
  rw [hsc] at h
  try dsimp only at h
  cases hdp : PortId.parse raw.destination_port with
  | error e => rw [hdp] at h; simp at h
  | ok pb =>
  rw [hdp] at h
  try dsimp only at h
  cases hdc : ChannelId.parse raw.destination_channel with
  | error e => rw [hdc] at h; simp at h
  | ok cb =>
  rw [hdc] at h
  try dsimp only at h
  simp only [Except.ok.injEq] at h
  subst h
  unfold Packet.tryFromRaw
  simp only [bind, Except.bind, pure, Except.pure, Packet.toRaw]
  try dsimp only
  rw [timeoutHeight_tryFromRaw_rt hth]
  try dsimp only
  rw [if_neg hto, (portId_parse_rt hsp).2]
  try dsimp only
  rw [(channelId_parse_rt hsc).2]
  try dsimp only
  rw [(portId_parse_rt hdp).2]
  try dsimp only
  rw [(channelId_parse_rt hdc).2]

theorem msgTimeout_tryFromRaw_rt {raw : RawMsgTimeout} {m : MsgTimeout}
    (h : MsgTimeout.tryFromRaw raw = .ok m) : MsgTimeout.tryFromRaw m.toRaw = .ok m := by
  unfold MsgTimeout.tryFromRaw at h
  simp only [bind, Except.bind, pure, Except.pure] at h
  by_cases hseq : raw.next_sequence_recv = 0
  · rw [if_pos hseq] at h; simp at h
  rw [if_neg hseq] at h
  cases hpkt : raw.packet with
  | none => rw [hpkt] at h; simp at h
  | some rp =>
  rw [hpkt] at h
  try dsimp only at h
  cases hp : Packet.tryFromRaw rp with
  | error e => rw [hp] at h; simp at h
  | ok pkt =>
  rw [hp] at h
  try dsimp only at h
  cases hpr : CommitmentProofBytes.tryFrom raw.proof_unreceived with
  | error e => rw [hpr] at h; simp at h
  | ok pr =>
  rw [hpr] at h
  try dsimp only at h
  cases hph : raw.proof_height with
  | none => rw [hph] at h; simp at h
  | some rh =>
  rw [hph] at h
  dsimp only [Option.bind] at h
  cases hhh : Height.tryFromRaw rh with
  | none => rw [hhh] at h; simp at h
  | some hh =>
  rw [hhh] at h
  try dsimp only at h
  simp only [Except.ok.injEq] at h
  subst h
  unfold MsgTimeout.tryFromRaw
  simp only [bind, Except.bind, pure, Except.pure, MsgTimeout.toRaw]
  try dsimp only
  rw [if_neg hseq]
  try dsimp only
  rw [packet_tryFromRaw_rt hp]
  try dsimp only
  rw [CommitmentProofBytes.tryFrom_rt hpr, hpr]
  try dsimp only [Option.bind]
  rw [Height.tryFromRaw_toRaw (Height.tryFromRaw_rt hhh).2]

theorem msgChanCloseInit_tryFromRaw_rt {raw : RawMsgChannelCloseInit}
    {m : MsgChannelCloseInit} (h : MsgChannelCloseInit.tryFromRaw raw = .ok m) :
    MsgChannelCloseInit.tryFromRaw m.toRaw = .ok m := by
  unfold MsgChannelCloseInit.tryFromRaw at h
  simp only [bind, Except.bind, pure, Except.pure] at h
  cases hp : PortId.parse raw.port_id with
  | error e => rw [hp] at h; simp at h
  | ok pid =>
  rw [hp] at h
  try dsimp only at h
  cases hc : ChannelId.parse raw.channel_id with
  | error e => rw [hc] at h; simp at h
  | ok cid =>
  rw [hc] at h
  try dsimp only at h
  simp only [Except.ok.injEq] at h
  subst h
  unfold MsgChannelCloseInit.tryFromRaw
  simp only [bind, Except.bind, pure, Except.pure, MsgChannelCloseInit.toRaw]
  try dsimp only
  rw [(portId_parse_rt hp).2]
  try dsimp only
  rw [(channelId_parse_rt hc).2]

/-- C6: for every raw message that `try_from` accepts, the produced domain
message round-trips: converting back to the raw representation and parsing
again yields the same message, for each of `MsgConnectionOpenTry` (which
preserves the deprecated `previous_connection_id` field), `MsgTimeout` and
`MsgChannelCloseInit`. For the connection message the raw `delay_period` is a
`u64`, stated here as an explicit range hypothesis on its `Nat` model. -/
theorem msg_from_raw_to_raw_roundtrip :
    (∀ (raw : RawMsgConnectionOpenTry) (m : MsgConnectionOpenTry),
      raw.delay_period < 2 ^ 64 →
      MsgConnectionOpenTry.tryFromRaw raw = .ok m →
      MsgConnectionOpenTry.tryFromRaw m.toRaw = .ok m) ∧
    (∀ (raw : RawMsgTimeout) (m : MsgTimeout),
      MsgTimeout.tryFromRaw raw = .ok m → MsgTimeout.tryFromRaw m.toRaw = .ok m) ∧
    (∀ (raw : RawMsgChannelCloseInit) (m : MsgChannelCloseInit),
      MsgChannelCloseInit.tryFromRaw raw = .ok m →
      MsgChannelCloseInit.tryFromRaw m.toRaw = .ok m) :=
  ⟨fun _ m hb h => by rw [msgConnOpenTry_toRaw_of_tryFromRaw hb h]; exact h,
   fun _ m h => msgTimeout_tryFromRaw_rt h,
   fun _ m h => msgChanCloseInit_tryFromRaw_rt h⟩

/-- The domain message parsed from `rawConnOpenTryDummy`. -/
def msgConnOpenTryDummy : MsgConnectionOpenTry :=
  { client_id_on_b := ⟨"07-tendermint-0"⟩
    client_state_of_b_on_a := ⟨"/mock.ClientState", [1]⟩
    counterparty := ⟨⟨"07-tendermint-0"⟩, some ⟨"connection-0"⟩, ⟨[105, 98, 99]⟩⟩
    versions_on_a := [⟨"1", ["ORDER_ORDERED", "ORDER_UNORDERED"]⟩]
    proof_conn_end_on_a := ⟨[1, 2]⟩
    proof_client_state_of_b_on_a := ⟨[1, 2]⟩
    proof_consensus_state_of_b_on_a := ⟨[1, 2]⟩
    proofs_height_on_a := ⟨0, 10⟩
    consensus_height_of_b_on_a := ⟨0, 34⟩
    delay_period := ⟨0, 0⟩
    signer := "cosmos1signer"
    proof_consensus_state_of_b := none
    previous_connection_id := "connection-0" }

def rawMsgTimeoutDummy : RawMsgTimeout :=
  { packet := some ⟨1, "transfer", "channel-0", "transfer", "channel-1", [1, 2], some ⟨0, 20⟩, 0⟩
    proof_unreceived := [1, 2]
    proof_height := some ⟨0, 15⟩
    next_sequence_recv := 1
    signer := "cosmos1signer" }

def msgTimeoutDummy : MsgTimeout :=
  { packet := ⟨⟨1⟩, ⟨"transfer"⟩, ⟨"channel-0"⟩, ⟨"transfer"⟩, ⟨"channel-1"⟩, [1, 2],
      .at_ ⟨0, 20⟩, 0⟩
    next_seq_recv_on_b := ⟨1⟩
    proof_unreceived_on_b := ⟨[1, 2]⟩
    proof_height_on_b := ⟨0, 15⟩
    signer := "cosmos1signer" }

def rawMsgChanCloseInitDummy : RawMsgChannelCloseInit :=
  ⟨"transfer", "channel-0", "cosmos1signer"⟩

def msgChanCloseInitDummy : MsgChannelCloseInit :=
  ⟨⟨"transfer"⟩, ⟨"channel-0"⟩, "cosmos1signer"⟩

theorem msg_from_raw_to_raw_roundtrip_witness :
    MsgConnectionOpenTry.tryFromRaw msgConnOpenTryDummy.toRaw = .ok msgConnOpenTryDummy ∧
    MsgTimeout.tryFromRaw msgTimeoutDummy.toRaw = .ok msgTimeoutDummy ∧
    MsgChannelCloseInit.tryFromRaw msgChanCloseInitDummy.toRaw = .ok msgChanCloseInitDummy :=
  ⟨msg_from_raw_to_raw_roundtrip.1 rawConnOpenTryDummy msgConnOpenTryDummy (by decide) (by rfl),
   msg_from_raw_to_raw_roundtrip.2.1 rawMsgTimeoutDummy msgTimeoutDummy (by rfl),
   msg_from_raw_to_raw_roundtrip.2.2 rawMsgChanCloseInitDummy msgChanCloseInitDummy (by rfl)⟩

/-! ## C8: the Tendermint consensus-state codec round trip -/

theorem varintDec_enc (n : Nat) (rest : List Nat) :
    varintDec (varintEnc n ++ rest) = some (n, rest) := by
  induction n using Nat.strong_induction_on with
  | _ n ih =>
    unfold varintEnc
    split
    · next h => simp [varintDec, h]
    · next h =>
      rw [List.cons_append]
      simp only [varintDec]
      rw [if_neg (by omega), ih (n / 128) (Nat.div_lt_self (by omega) (by omega))]
      simp only [Option.some.injEq, Prod.mk.injEq, and_true]
      omega

theorem varintDec_enc_nil (n : Nat) : varintDec (varintEnc n) = some (n, []) := by
  simpa using varintDec_enc n []

theorem i64ToU64_rt (s : Int) (h1 : -(2 ^ 63) ≤ s) (h2 : s < 2 ^ 63) :
    u64ToI64 (i64ToU64 s) = s := by
  unfold i64ToU64 u64ToI64
  split <;> omega

theorem i32ToU64_rt (n : Int) (h1 : 0 ≤ n) (h2 : n < 2 ^ 31) :
    u64ToI32 (i32ToU64 n) = n := by
  unfold i32ToU64 u64ToI32
  split <;> split <;> omega

/-- The `Timestamp` codec round trip, for values in the ranges the domain type
produces. -/
theorem decodeProtoTimestamp_enc (t : ProtoTimestamp)
    (hs1 : -(2 ^ 63) ≤ t.seconds) (hs2 : t.seconds < 2 ^ 63)
    (hn1 : 0 ≤ t.nanos) (hn2 : t.nanos < 2 ^ 31) :
    decodeProtoTimestamp (encodeProtoTimestamp t) = some t := by
  obtain ⟨s, n⟩ := t
  simp only at hs1 hs2 hn1 hn2
  unfold encodeProtoTimestamp
  dsimp only
  by_cases hsz : s = 0
  · by_cases hnz : n = 0
    · rw [if_pos hsz, if_pos hnz, List.nil_append]
      simp [decodeProtoTimestamp, hsz, hnz]
    · rw [if_pos hsz, if_neg hnz, List.nil_append]
      simp only [decodeProtoTimestamp, varintDec_enc_nil]
      simp [i32ToU64_rt n hn1 hn2, hsz]
  · by_cases hnz : n = 0
    · rw [if_neg hsz, if_pos hnz, List.append_nil]
      simp only [decodeProtoTimestamp, varintDec_enc_nil]
      rw [i64ToU64_rt s hs1 hs2, hnz]
    · rw [if_neg hsz, if_neg hnz, List.cons_append]
      simp [decodeProtoTimestamp, varintDec_enc, varintDec_enc_nil,
        i64ToU64_rt s hs1 hs2, i32ToU64_rt n hn1 hn2]

theorem decodeMerkleRoot_enc (m : MerkleRoot) :
    decodeMerkleRoot (encodeMerkleRoot m) = some m := by
  obtain ⟨hash⟩ := m
  unfold encodeMerkleRoot
  dsimp only
  by_cases h : hash = []
  · rw [if_pos h]
    simp [decodeMerkleRoot, h]
  · rw [if_neg h]
    simp [decodeMerkleRoot, varintDec_enc]

theorem take_length_append {α : Type} (l r : List α) : (l ++ r).take l.length = l := by
  induction l with
  | nil => rfl
  | cons x xs ih => simp [ih]

theorem drop_length_append {α : Type} (l r : List α) : (l ++ r).drop l.length = r := by
  induction l with
  | nil => rfl
  | cons x xs ih => simp [ih]

/-- Reading a present length-delimited field from the canonical stream. -/
theorem readLenField_present (tag : Nat) (payload rest : List Nat) :
    readLenField tag (fieldEnc tag payload ++ rest) = some (some payload, rest) := by
  unfold fieldEnc readLenField
  rw [List.cons_append]
  dsimp only
  rw [if_pos rfl, List.append_assoc, varintDec_enc]
  dsimp only
  rw [if_pos (by simp), take_length_append, drop_length_append]

theorem readLenField_present_nil (tag : Nat) (payload : List Nat) :
    readLenField tag (fieldEnc tag payload) = some (some payload, []) := by
  simpa using readLenField_present tag payload []

/-- Reading an absent optional field: the stream starts with a different tag
(or is exhausted). -/
theorem readLenField_absent (tag : Nat) (bs : List Nat)
    (h : ∀ b rest, bs = b :: rest → b ≠ tag) :
    readLenField tag bs = some (none, bs) := by
  unfold readLenField
  cases bs with
  | nil => rfl
  | cons b rest =>
    dsimp only
    rw [if_neg (h b rest rfl)]

theorem readLenField_absent_fieldEnc (tag tag2 : Nat) (payload rest : List Nat)
    (h : tag2 ≠ tag) :
    readLenField tag (fieldEnc tag2 payload ++ rest) =
      some (none, fieldEnc tag2 payload ++ rest) := by
  apply readLenField_absent
  intro b r hb
  unfold fieldEnc at hb
  rw [List.cons_append] at hb
  cases hb
  exact h

/-- The `RawConsensusState` codec round trip, for timestamps in the ranges the
domain type produces. -/
theorem decodeRawConsensusState_enc (r : RawConsensusState)
    (hts : ∀ t, r.timestamp = some t →
      -(2 ^ 63) ≤ t.seconds ∧ t.seconds < 2 ^ 63 ∧ 0 ≤ t.nanos ∧ t.nanos < 2 ^ 31) :
    decodeRawConsensusState (encodeRawConsensusState r) = some r := by
  obtain ⟨ts, root, nvh⟩ := r
  unfold encodeRawConsensusState
  dsimp only
  cases ts with
  | some t =>
    obtain ⟨ht1, ht2, ht3, ht4⟩ := hts t rfl
    unfold decodeRawConsensusState
    rw [readLenField_present 10 (encodeProtoTimestamp t)]
    dsimp only
    cases root with
    | some m =>
      rw [readLenField_present 18 (encodeMerkleRoot m)]
      dsimp only
      cases nvh with
      | nil =>
        rw [readLenField_absent 26 [] (by intro b r hb; cases hb)]
        dsimp only
        simp [decodeProtoTimestamp_enc t ht1 ht2 ht3 ht4,
          decodeRawConsensusStateTail, decodeMerkleRoot_enc]
      | cons x xs =>
        rw [readLenField_present_nil 26 (x :: xs)]
        dsimp only
        simp [decodeProtoTimestamp_enc t ht1 ht2 ht3 ht4,
          decodeRawConsensusStateTail, decodeMerkleRoot_enc]
    | none =>
      rw [List.nil_append]
      cases nvh with
      | nil =>
        rw [readLenField_absent 18 [] (by intro b r hb; cases hb)]
        dsimp only
        rw [readLenField_absent 26 [] (by intro b r hb; cases hb)]
        dsimp only
        simp [decodeProtoTimestamp_enc t ht1 ht2 ht3 ht4,
          decodeRawConsensusStateTail]
      | cons x xs =>
        dsimp only
        rw [show fieldEnc 26 (x :: xs) = fieldEnc 26 (x :: xs) ++ [] by simp]
        rw [readLenField_absent_fieldEnc 18 26 (x :: xs) [] (by decide)]
        dsimp only
        rw [List.append_nil, readLenField_present_nil 26 (x :: xs)]
        dsimp only
        simp [decodeProtoTimestamp_enc t ht1 ht2 ht3 ht4,
          decodeRawConsensusStateTail]
  | none =>
    rw [List.nil_append]
    unfold decodeRawConsensusState
    cases root with
    | some m =>
      rw [readLenField_absent_fieldEnc 10 18 (encodeMerkleRoot m) _ (by decide)]
      dsimp only
      rw [readLenField_present 18 (encodeMerkleRoot m)]
      dsimp only
      cases nvh with
      | nil =>
        rw [readLenField_absent 26 [] (by intro b r hb; cases hb)]
        dsimp only
        simp [decodeRawConsensusStateTail, decodeMerkleRoot_enc]
      | cons x xs =>
        rw [readLenField_present_nil 26 (x :: xs)]
        dsimp only
        simp [decodeRawConsensusStateTail, decodeMerkleRoot_enc]
    | none =>
      rw [List.nil_append]
      cases nvh with
      | nil =>
        rw [readLenField_absent 10 [] (by intro b r hb; cases hb)]
        dsimp only
        rw [readLenField_absent 18 [] (by intro b r hb; cases hb)]
        dsimp only
        rw [readLenField_absent 26 [] (by intro b r hb; cases hb)]
        dsimp only
        simp [decodeRawConsensusStateTail]
      | cons x xs =>
        dsimp only
        rw [show fieldEnc 26 (x :: xs) = fieldEnc 26 (x :: xs) ++ [] by simp]
        rw [readLenField_absent_fieldEnc 10 26 (x :: xs) [] (by decide)]
        dsimp only
        rw [readLenField_absent_fieldEnc 18 26 (x :: xs) [] (by decide)]
        dsimp only
        rw [List.append_nil, readLenField_present_nil 26 (x :: xs)]
        dsimp only
        simp [decodeRawConsensusStateTail]

theorem TmTime.tryFromProto_toProto (t : TmTime) : TmTime.tryFromProto t.toProto = .ok t := by
  unfold TmTime.tryFromProto TmTime.toProto
  have hn := t.nanos_lt
  have hg := t.seconds_ge
  have hl := t.seconds_le
  rw [dif_pos]
  · simp only [Except.ok.injEq]
    apply TmTime.ext_fields
    · rfl
    · simp
  · exact ⟨Int.natCast_nonneg _, by simpa using hn, hg, hl⟩

theorem TmHash.from_bytes_as_bytes (h : TmHash) : TmHash.from_bytes h.as_bytes = .ok h := by
  cases h with
  | noHash => rfl
  | sha256 b hb =>
    unfold TmHash.from_bytes TmHash.as_bytes
    dsimp only
    rw [if_neg (by intro hnil; subst hnil; simp at hb), dif_pos hb]

/-- C8: for every Tendermint `ConsensusState` value `x`, decoding its encoding
returns `x`: the round trip through `Any` (`TryFrom<Any>` after
`From<ConsensusState> for Any`, with the canonical protobuf wire codec of the
external runtime) and the round trip through `RawConsensusState` both return
the original value. -/
theorem consensus_state_decode_encode (x : ConsensusState) :
    ConsensusState.tryFromAny x.toAny = .ok x ∧
    ConsensusState.tryFromRaw x.toRaw = .ok x := by
  have hraw : ConsensusState.tryFromRaw x.toRaw = .ok x := by
    obtain ⟨ts, root, nvh⟩ := x
    unfold ConsensusState.toRaw ConsensusState.tryFromRaw
    dsimp only
    rw [TmTime.tryFromProto_toProto, TmHash.from_bytes_as_bytes]
  have hts : ∀ t, x.toRaw.timestamp = some t →
      -(2 ^ 63) ≤ t.seconds ∧ t.seconds < 2 ^ 63 ∧ 0 ≤ t.nanos ∧ t.nanos < 2 ^ 31 := by
    intro t ht
    unfold ConsensusState.toRaw at ht
    simp only [Option.some.injEq] at ht
    subst ht
    unfold TmTime.toProto
    dsimp only
    have hn := x.timestamp.nanos_lt
    have hg := x.timestamp.seconds_ge
    have hl := x.timestamp.seconds_le
    unfold tmTimeMinSeconds at hg
    unfold tmTimeMaxSeconds at hl
    have hcast : ((x.timestamp.nanos : Int)) < ((1000000000 : Nat) : Int) := by
      exact_mod_cast hn
    exact ⟨by omega, by omega, by omega, by omega⟩
  refine ⟨?_, hraw⟩
  unfold ConsensusState.toAny ConsensusState.tryFromAny
  dsimp only
  split
  · rw [decodeRawConsensusState_enc x.toRaw hts]
    dsimp only
    rw [hraw]
  · next hcond => exact absurd rfl hcond

end Ibc
